import Mathlib

/-!
Shallow embedding of the `mailing_discador` client library
(`auth_3cplus.py` and `mailing_3cplus.py`).

HTTP traffic is modelled as a stream `Nat → AttemptResult`: the outcome the
`requests` session produces for the n-th request issued by the call under
study (mirroring the queue-based fake session used by the tests of the repository).
Python `None`/dict/list/str/int/bool values are modelled by the `Json` type,
exceptions by the `Err` sum, and each stateful method returns its result
together with the successor client state.
-/

namespace MailingDiscador

/-- A Python/JSON value as handled by the clients. -/
inductive Json where
  | null : Json
  | bool : Bool → Json
  | int : Int → Json
  | str : String → Json
  | arr : List Json → Json
  | obj : List (String × Json) → Json

/-- First-match association lookup, the model of `d[k]` / `d.get(k)` on a
Python dict (dict keys are unique, so first match is the match). -/
def jlookup : List (String × Json) → String → Option Json
  | [], _ => none
  | (k, v) :: rest, key => if k = key then some v else jlookup rest key

/-- `d.get(key)` on a JSON object: `None` when absent. -/
def Json.get (j : Json) (key : String) : Option Json :=
  match j with
  | .obj kvs => jlookup kvs key
  | _ => none

/-- Python truthiness of a value (`bool(x)`). -/
def pyTruthy : Json → Bool
  | .null => false
  | .bool b => b
  | .int n => n != 0
  | .str s => s != ""
  | .arr xs => !xs.isEmpty
  | .obj kvs => !kvs.isEmpty

/-- Python `x or y` (value-returning, truthiness-driven). -/
def pyOr (a b : Json) : Json :=
  if pyTruthy a then a else b

/-- Python `repr` of a string literal (escaping of quotes inside the string
is not reproduced; the claims never depend on it). -/
def pyQuote (s : String) : String :=
  String.singleton (Char.ofNat 39) ++ s ++ String.singleton (Char.ofNat 39)

/-- Python `repr` of a value. -/
def pyRepr (j : Json) : String :=
  match j with
  | .null => "None"
  | .bool true => "True"
  | .bool false => "False"
  | .int n => toString n
  | .str s => pyQuote s
  | .arr xs => "[" ++ String.intercalate ", " (xs.attach.map fun x => pyRepr x.1) ++ "]"
  | .obj kvs =>
      "\x7b" ++
        String.intercalate ", "
          (kvs.attach.map fun kv => pyQuote kv.1.1 ++ ": " ++ pyRepr kv.1.2) ++
      "\x7d"
termination_by sizeOf j
decreasing_by
  all_goals first
  | (have hm := List.sizeOf_lt_of_mem x.2
     simp at hm ⊢
     omega)
  | (have hm := List.sizeOf_lt_of_mem kv.2
     obtain ⟨⟨k, v⟩, hkv⟩ := kv
     simp at hm ⊢
     omega)

/-- Python `str(x)`. -/
def pyStr : Json → String
  | .str s => s
  | j => pyRepr j

/-- `isinstance(x, int)` plus the resulting integer value.  Python `bool`
is a subclass of `int` (`True == 1`, `False == 0`). -/
def asPyInt : Json → Option Int
  | .int n => some n
  | .bool b => some (if b then 1 else 0)
  | _ => none

/-- Whether `pat` is a prefix of `hay` (character lists). -/
def leadsWith : List Char → List Char → Bool
  | [], _ => true
  | _ :: _, [] => false
  | x :: xs, y :: ys => x == y && leadsWith xs ys

/-- Whether `pat` occurs contiguously in `hay` (character lists). -/
def occursInChars (pat : List Char) : List Char → Bool
  | [] => leadsWith pat []
  | y :: t => leadsWith pat (y :: t) || occursInChars pat t

/-- Python substring test `pat in hay`. -/
def strContains (hay pat : String) : Bool :=
  occursInChars pat.toList hay.toList

/-- Python `s.lower()` (ASCII, as in the data at hand). -/
def pyLower (s : String) : String :=
  String.mk (s.toList.map Char.toLower)

/-- Python `s.split(sep)` for a one-character separator: the accumulator
holds the current piece reversed. -/
def pySplitAux (sep : Char) : List Char → List Char → List String
  | [], acc => [String.mk acc.reverse]
  | x :: xs, acc =>
    if x == sep then String.mk acc.reverse :: pySplitAux sep xs []
    else pySplitAux sep xs (x :: acc)

/-- Python `s.split(sep)`. -/
def pySplit (s : String) (sep : Char) : List String :=
  pySplitAux sep s.toList []

/-- Python `s.isdigit()` (ASCII digits; the exotic unicode digit classes are
not modelled). -/
def pyIsDigitStr (s : String) : Bool :=
  !s.toList.isEmpty && s.toList.all Char.isDigit

/-- Python `int(s)` on a digit string. -/
def pyStrToNat (s : String) : Nat :=
  s.toList.foldl (fun acc c => acc * 10 + (c.toNat - 48)) 0

/-- What the transport produces for one HTTP attempt: a raised
`requests.exceptions.Timeout`, another raised
`requests.exceptions.RequestException`, or a delivered response with a
status code and a decoded JSON body. -/
inductive AttemptResult where
  | timeout : AttemptResult
  | netError : AttemptResult
  | resp : Nat → Json → AttemptResult

/-- The transient cause recorded in `last_exc` by the retry loops. -/
inductive Cause where
  | timeout : Cause
  | netError : Cause
  | http : Nat → Cause
deriving DecidableEq, Repr

/-- The exceptions the two modules can raise, flattened into one sum.
`apiUnavailable` carries the optional chained cause (`raise ... from
last_exc`); `transportRaised` models a `requests` exception propagating
uncaught; `pyRuntime` models a dynamic-typing failure (`TypeError` /
`AttributeError`) Python would raise. -/
inductive Err where
  | invalidCredentials : Err
  | unauthorized : Err
  | tokenExpired : Err
  | apiUnavailable : Option Cause → Err
  | rateLimitExceeded : Err
  | inputInvalid : Err
  | tokenNotFound : Err
  | unexpectedAuthStatus : Nat → Err
  | campaignNotFound : String → Err
  | createMailingFailed : Err
  | uploadFailed : Err
  | weightUpdateFailed : Err
  | unexpectedMailingStatus : Nat → String → Err
  | valueError : Err
  | transportRaised : Cause → Err
  | pyRuntime : Err
deriving DecidableEq

/-! ## Auth client (`auth_3cplus.py`) -/

/-- Mutable state of a `ThreeCAuthClient`: the stored token and the shared
headers of the shared session. -/
structure AuthState where
  token : Option String
  headers : List (String × String)
deriving DecidableEq

/-- `headers.update({k: v})` on a Python dict: replace in place, else append. -/
def headerSet (hs : List (String × String)) (k v : String) : List (String × String) :=
  if hs.any (fun kv => kv.1 == k) then
    hs.map (fun kv => if kv.1 = k then (k, v) else kv)
  else
    hs ++ [(k, v)]

/-- `headers.pop(k, None)` on a Python dict. -/
def headerPop (hs : List (String × String)) (k : String) : List (String × String) :=
  hs.filter (fun kv => kv.1 != k)

/-- For the size argument justifying the recursion of `extractToken`. -/
theorem jlookup_sizeOf_lt : ∀ {kvs : List (String × Json)} {key : String} {v : Json},
    jlookup kvs key = some v → sizeOf v < sizeOf (Json.obj kvs) := by
  intro kvs
  induction kvs with
  | nil => intro key v h; simp [jlookup] at h
  | cons kv rest ih =>
    intro key v h
    obtain ⟨k, w⟩ := kv
    rw [jlookup] at h
    split at h
    · cases h
      simp
      omega
    · have := ih h
      simp at this ⊢
      omega

/-- `ThreeCAuthClient._extract_token`: look for a string under `api_token`
then `token`, else recurse into a dict-valued `data` field. -/
def extractToken (j : Json) : Option String :=
  match j with
  | .obj kvs =>
    match jlookup kvs "api_token" with
    | some (.str s) => some s
    | _ =>
      match jlookup kvs "token" with
      | some (.str s) => some s
      | _ =>
        match h : jlookup kvs "data" with
        | some (Json.obj kvs2) => extractToken (Json.obj kvs2)
        | _ => none
  | _ => none
termination_by sizeOf j
decreasing_by
  exact jlookup_sizeOf_lt h

/-- The retry loop inside `ThreeCAuthClient.login`: attempts are numbered by
the transport index `i`, `remaining` attempts are left, `lastExc` is the
`last_exc` variable.  Returns the response that broke the loop, or the final
`last_exc` when the budget is exhausted (the `for ... else` branch). -/
def loginPostGo (tr : Nat → AttemptResult) :
    Nat → Nat → Option Cause → Except (Option Cause) (Nat × Json)
  | _, 0, lastExc => .error lastExc
  | i, r + 1, lastExc =>
    match tr i with
    | .timeout => loginPostGo tr (i + 1) r (some .timeout)
    | .netError => loginPostGo tr (i + 1) r (some .netError)
    | .resp s b =>
      if 500 ≤ s then loginPostGo tr (i + 1) r (some (.http s))
      else .ok (s, b)

/-- The whole `login` retry loop, starting at transport index 0 with
`max_retries` budget and no recorded failure. -/
def loginPost (tr : Nat → AttemptResult) (maxRetries : Nat) :
    Except (Option Cause) (Nat × Json) :=
  loginPostGo tr 0 maxRetries none

/-- `ThreeCAuthClient._handle_login_response`.  The guard `if not token:`
is Python truthiness: it raises the token-not-found error both when no token
was extracted and when the extracted token is the empty string. -/
def handleLoginResponse (st : AuthState) (status : Nat) (body : Json) :
    Except Err String × AuthState :=
  if status = 200 then
    match extractToken body with
    | none => (.error .tokenNotFound, st)
    | some token =>
        if token = "" then (.error .tokenNotFound, st)
        else
          (.ok token,
           { token := some token,
             headers := headerSet st.headers "Authorization" ("Bearer " ++ token) })
  else if status = 400 ∨ status = 422 then (.error .inputInvalid, st)
  else if status = 401 then (.error .invalidCredentials, st)
  else if status = 429 then (.error .rateLimitExceeded, st)
  else if 500 ≤ status then (.error (.apiUnavailable none), st)
  else (.error (.unexpectedAuthStatus status), st)

/-- `ThreeCAuthClient.login` after credential resolution: run the retry loop,
raise `ApiUnavailable` chained to `last_exc` on exhaustion, otherwise hand
the breaking response to `_handle_login_response`. -/
def login (tr : Nat → AttemptResult) (maxRetries : Nat) (st : AuthState) :
    Except Err String × AuthState :=
  match loginPost tr maxRetries with
  | .error lastExc => (.error (.apiUnavailable lastExc), st)
  | .ok (s, b) => handleLoginResponse st s b

/-- `ThreeCAuthClient.auth_headers`.  `if not self._token:` raises
`Unauthorized` for a missing and for an empty stored token alike. -/
def authHeaders (st : AuthState) : Except Err (List (String × String)) :=
  match st.token with
  | none => .error .unauthorized
  | some t =>
    if t = "" then .error .unauthorized
    else .ok [("Authorization", "Bearer " ++ t)]

/-- `ThreeCAuthClient.is_autenticado`. -/
def isAutenticado (st : AuthState) : Bool :=
  st.token.isSome

/-- `ThreeCAuthClient.logout`: one GET (no retry); `r` is its outcome.
`if not self._token:` raises `Unauthorized`, before any request, for a
missing and for an empty stored token alike. -/
def logout (r : AttemptResult) (st : AuthState) : Except Err Unit × AuthState :=
  match st.token with
  | none => (.error .unauthorized, st)
  | some t =>
    if t = "" then (.error .unauthorized, st)
    else
    match r with
    | .timeout => (.error (.transportRaised .timeout), st)
    | .netError => (.error (.transportRaised .netError), st)
    | .resp s _ =>
      if s = 200 then
        (.ok (), { token := none, headers := headerPop st.headers "Authorization" })
      else if s = 401 ∨ s = 403 then
        (.error .tokenExpired,
         { token := none, headers := headerPop st.headers "Authorization" })
      else if s = 429 then (.error .rateLimitExceeded, st)
      else if 500 ≤ s then (.error (.apiUnavailable none), st)
      else (.error (.unexpectedAuthStatus s), st)

/-! ## Mailing client (`mailing_3cplus.py`)

`_request_json` is modelled over the resolved candidate path list (the output
of `_resolve_endpoint`), a transport stream `tr` indexed by the order requests
are issued, and a `uuid.uuid4()` supply `keys` indexed by the order keys are
generated.  Request bodies/params are not modelled: the transport stream
already fixes the outcome of each attempt.  Besides the result, the model returns
the next unused uuid index and a trace with one entry per HTTP attempt made,
recording the `Idempotency-Key` header value (if any) that attempt carried. -/

/-- How the per-candidate retry loop of `_request_json` ended. -/
inductive LoopExit where
  | ret : Nat → Json → LoopExit
  | brk404 : LoopExit
  | exhausted : LoopExit

/-- The inner `for attempt in range(1, max_retries + 1)` loop of
`_request_json`, run against one candidate path: `i` is the transport index
of the next attempt, `remaining` the attempts left, `lastExc` the `last_exc`
variable (shared across candidates).  Returns how the loop ended, the updated
`last_exc`, and the next transport index. -/
def pathLoop (tr : Nat → AttemptResult) :
    Nat → Nat → Option Cause → LoopExit × Option Cause × Nat
  | i, 0, lastExc => (.exhausted, lastExc, i)
  | i, r + 1, lastExc =>
    match tr i with
    | .timeout => pathLoop tr (i + 1) r (some .timeout)
    | .netError => pathLoop tr (i + 1) r (some .netError)
    | .resp s b =>
      if s = 404 then (.brk404, lastExc, i + 1)
      else if 500 ≤ s then pathLoop tr (i + 1) r (some (.http s))
      else (.ret s b, lastExc, i + 1)

/-- The final `raise` of `_request_json` once every candidate is spent:
`Timeout`/`RequestException` in `last_exc` become `ApiUnavailable` (chained);
anything else (no failure recorded, or the `ApiUnavailable` stored for a 5xx)
falls to `CampaignNotFound` tagged with the operation key. -/
def finalRaise (lastExc : Option Cause) (endpointKey : String) : Err :=
  match lastExc with
  | some .timeout => .apiUnavailable (some .timeout)
  | some .netError => .apiUnavailable (some .netError)
  | _ => .campaignNotFound endpointKey

/-- The outer `for path in paths` loop of `_request_json`.  A fresh
idempotency key is generated at the top of each candidate iteration (when
`idem`).  The trailing `if last_exc and isinstance(last_exc,
ApiUnavailable): continue` is control-flow-equivalent to falling through to
the next candidate, which both loop exits below do. -/
def requestJsonGo (tr : Nat → AttemptResult) (keys : Nat → String) (idem : Bool)
    (maxRetries : Nat) (endpointKey : String) :
    List String → Nat → Nat → Option Cause → List (Option String) →
    Except Err (Nat × Json) × Nat × List (Option String)
  | [], _, kIdx, lastExc, trace => (.error (finalRaise lastExc endpointKey), kIdx, trace)
  | _ :: rest, tIdx, kIdx, lastExc, trace =>
    let key : Option String := if idem then some (keys kIdx) else none
    let kIdx' := if idem then kIdx + 1 else kIdx
    match pathLoop tr tIdx maxRetries lastExc with
    | (.ret s b, _, tIdx') =>
        (.ok (s, b), kIdx', trace ++ List.replicate (tIdx' - tIdx) key)
    | (.brk404, last', tIdx') =>
        requestJsonGo tr keys idem maxRetries endpointKey rest tIdx' kIdx' last'
          (trace ++ List.replicate (tIdx' - tIdx) key)
    | (.exhausted, last', tIdx') =>
        requestJsonGo tr keys idem maxRetries endpointKey rest tIdx' kIdx' last'
          (trace ++ List.replicate (tIdx' - tIdx) key)

/-- `ThreeCMailingClient._request_json` over resolved candidate paths. -/
def requestJson (tr : Nat → AttemptResult) (keys : Nat → String)
    (paths : List String) (maxRetries : Nat) (idem : Bool) (endpointKey : String) :
    Except Err (Nat × Json) × Nat × List (Option String) :=
  requestJsonGo tr keys idem maxRetries endpointKey paths 0 0 none []

/-- `ThreeCMailingClient._handle_response`. -/
def handleResponse (endpointKey : String) (status : Nat) (body : Json) :
    Except Err Json :=
  if status = 200 ∨ status = 201 then .ok body
  else if status = 400 ∨ status = 422 then .error .inputInvalid
  else if status = 401 ∨ status = 403 then .error .unauthorized
  else if status = 404 then .error (.campaignNotFound endpointKey)
  else if status = 409 then .error .uploadFailed
  else if status = 429 then .error .rateLimitExceeded
  else if 500 ≤ status then .error (.apiUnavailable none)
  else .error (.unexpectedMailingStatus status endpointKey)

/-- `ThreeCMailingClient._get_json` (GET, not idempotent). -/
def getJson (tr : Nat → AttemptResult) (keys : Nat → String)
    (paths : List String) (maxRetries : Nat) (endpointKey : String) :
    Except Err Json :=
  match (requestJson tr keys paths maxRetries false endpointKey).1 with
  | .error e => .error e
  | .ok (s, b) => handleResponse endpointKey s b

/-- `ThreeCMailingClient._post_json` (POST, idempotent). -/
def postJson (tr : Nat → AttemptResult) (keys : Nat → String)
    (paths : List String) (maxRetries : Nat) (endpointKey : String) :
    Except Err Json :=
  match (requestJson tr keys paths maxRetries true endpointKey).1 with
  | .error e => .error e
  | .ok (s, b) => handleResponse endpointKey s b

/-! ### `listar_campanhas` -/

/-- The name filter of `listar_campanhas`:
`if filtro and filtro.lower() not in str(camp.get("name", "")).lower()`. -/
def passaFiltro (filtro : Option String) (camp : Json) : Bool :=
  match filtro with
  | none => true
  | some f =>
    if f = "" then true
    else strContains (pyLower (pyStr ((camp.get "name").getD (.str "")))) (pyLower f)

/-- The activity filter of `listar_campanhas`:
`if somente_ativas and not camp.get("active", True)`. -/
def passaAtiva (somenteAtivas : Bool) (camp : Json) : Bool :=
  !somenteAtivas || pyTruthy ((camp.get "active").getD (.bool true))

/-- The integer ids a kept campaign contributes to `self.campaign_ids`:
`cid = camp.get("id")`, appended when `isinstance(cid, int)`. -/
def campIds (camp : Json) : List Int :=
  match camp.get "id" with
  | some j => match asPyInt j with
    | some n => [n]
    | none => []
  | none => []

/-- The `for camp in campanhas` loop of `listar_campanhas`, collecting the
kept campaigns in order and the integer ids they append.  A non-dict element
crashes Python at its first `camp.get` (`AttributeError`). -/
def listarLoop (filtro : Option String) (somenteAtivas : Bool) :
    List Json → Except Err (List Json × List Int)
  | [] => .ok ([], [])
  | camp :: rest =>
    match camp with
    | .obj _ =>
      if !passaFiltro filtro camp then listarLoop filtro somenteAtivas rest
      else if !passaAtiva somenteAtivas camp then listarLoop filtro somenteAtivas rest
      else
        match listarLoop filtro somenteAtivas rest with
        | .error e => .error e
        | .ok (cs, ids) => .ok (camp :: cs, campIds camp ++ ids)
    | _ => .error .pyRuntime

/-- `ThreeCMailingClient.listar_campanhas` applied to the decoded response
`data`: `campanhas = data.get("data") or data.get("campaigns") or []` then the
filter loop.  Iterating a truthy non-list value (or calling `.get` on a
non-dict response) crashes Python. -/
def listarCampanhas (data : Json) (filtro : Option String) (somenteAtivas : Bool) :
    Except Err (List Json × List Int) :=
  match data with
  | .obj _ =>
    match pyOr ((data.get "data").getD .null)
          (pyOr ((data.get "campaigns").getD .null) (.arr [])) with
    | .arr camps => listarLoop filtro somenteAtivas camps
    | _ => .error .pyRuntime
  | _ => .error .pyRuntime

/-- `listar_campanhas` end to end: `_get_json("listar_campanhas")` through
the candidate paths, then the filter loop. -/
def listarCampanhasHttp (tr : Nat → AttemptResult) (keys : Nat → String)
    (paths : List String) (maxRetries : Nat)
    (filtro : Option String) (somenteAtivas : Bool) :
    Except Err (List Json × List Int) :=
  match getJson tr keys paths maxRetries "listar_campanhas" with
  | .error e => .error e
  | .ok data => listarCampanhas data filtro somenteAtivas

/-! ### `criar_mailing_container` -/

/-- The probe order of `criar_mailing_container`. -/
def extractIdKeys : List String := ["data.mailing_id", "data.id", "mailing_id", "id"]

/-- The dotted-path walk inside `_extract_id`: `target = target[part]` for
each part, with `KeyError`/`TypeError` (missing key, or indexing a non-dict
with a string) caught by the caller — both modelled as `none`. -/
def dig : Json → List String → Option Json
  | j, [] => some j
  | .obj kvs, p :: ps =>
    match jlookup kvs p with
    | some v => dig v ps
    | none => none
  | _, _ :: _ => none

/-- The acceptance test of `_extract_id` on a dug-up value:
`isinstance(target, int)` (Python `bool` included), else a non-empty digit
string coerced with `int(...)`. -/
def acceptId (t : Json) : Option Int :=
  match asPyInt t with
  | some n => some n
  | none =>
    match t with
    | .str s => if pyIsDigitStr s then some (Int.ofNat (pyStrToNat s)) else none
    | _ => none

/-- `ThreeCMailingClient._extract_id`. -/
def extractId (data : Json) : List String → Except Err Int
  | [] => .error .createMailingFailed
  | key :: rest =>
    match dig data (pySplit key (Char.ofNat 46)) with
    | none => extractId data rest
    | some t =>
      match acceptId t with
      | some n => .ok n
      | none => extractId data rest

/-- `ThreeCMailingClient.criar_mailing_container` applied to the outcome of
`_post_json` (`UploadFailed` from a 409 is remapped to `CreateMailingFailed`;
the persistence callback is fire-and-forget and does not affect the result). -/
def criarMailingContainer (postResult : Except Err Json) (campanhaId : Int) :
    Except Err (Int × Int) :=
  match postResult with
  | .error .uploadFailed => .error .createMailingFailed
  | .error e => .error e
  | .ok data =>
    match extractId data extractIdKeys with
    | .error e => .error e
    | .ok mid => .ok (mid, campanhaId)

/-- `criar_mailing_container` end to end over the transport. -/
def criarMailingContainerHttp (tr : Nat → AttemptResult) (keys : Nat → String)
    (paths : List String) (maxRetries : Nat) (campanhaId : Int) :
    Except Err (Int × Int) :=
  criarMailingContainer (postJson tr keys paths maxRetries "criar_container") campanhaId

/-! ### `Contact` -/

/-- The constructor arguments of `Contact`, with the dataclass defaults. -/
structure ContactIn where
  name : Json := .null
  document : Json := .null
  phones : List Json := []
  email : Json := .null
  external_id : Json := .null
  extra : List (String × Json) := []

/-- A constructed `Contact` (i.e. one that survived `__post_init__`):
phones have been coerced to strings. -/
structure Contact where
  name : Json
  document : Json
  phones : List String
  email : Json
  external_id : Json
  extra : List (String × Json)

/-- `Contact.__init__` + `__post_init__`: more than 20 phones raises
`ValueError`; otherwise each phone is coerced with `str(p)`. -/
def mkContact (c : ContactIn) : Except Err Contact :=
  if 20 < c.phones.length then .error .valueError
  else .ok ⟨c.name, c.document, c.phones.map pyStr, c.email, c.external_id, c.extra⟩

/-- Syntactic test for Python `None` (`v is not None`). -/
def isNull : Json → Bool
  | .null => true
  | _ => false

/-- The declared-field dictionary built first by `Contact.to_dict`. -/
def declaredFields (c : Contact) : List (String × Json) :=
  [("name", c.name), ("document", c.document),
   ("phones", .arr (c.phones.map .str)),
   ("email", c.email), ("external_id", c.external_id)]

/-- How `dict.update` rewrites one existing entry: it keeps its position and
takes the value from `extra` when `extra` binds its key. -/
def updEntry (extra : List (String × Json)) (kv : String × Json) : String × Json :=
  match jlookup extra kv.1 with
  | some v => (kv.1, v)
  | none => kv

/-- Python `base.update(extra)` on dicts: existing keys are overwritten in
place, new keys appended in the order `extra` lists them. -/
def dictUpdate (base extra : List (String × Json)) : List (String × Json) :=
  base.map (updEntry extra)
  ++ extra.filter (fun kv => !(base.any (fun b => b.1 == kv.1)))

/-- `Contact.to_dict`: declared fields, updated by `extra`, with `None`
values removed. -/
def Contact.toDict (c : Contact) : List (String × Json) :=
  (dictUpdate (declaredFields c) c.extra).filter (fun kv => !isNull kv.2)

/-- The `[Contact(**c).to_dict() for c in contatos]` comprehension in
`enviar_mailing_json`: validates in order, first failure raises. -/
def validateContacts : List ContactIn → Except Err (List (List (String × Json)))
  | [] => .ok []
  | c :: rest =>
    match mkContact c with
    | .error e => .error e
    | .ok ct =>
      match validateContacts rest with
      | .error e => .error e
      | .ok ds => .ok (ct.toDict :: ds)

/-- `ThreeCMailingClient.enviar_mailing_json`: contact validation happens
before `_post_json`, so a validation failure issues no HTTP attempt (the
returned trace is empty). -/
def enviarMailingJsonHttp (tr : Nat → AttemptResult) (keys : Nat → String)
    (paths : List String) (maxRetries : Nat) (contatos : List ContactIn) :
    Except Err Json × List (Option String) :=
  match validateContacts contatos with
  | .error e => (.error e, [])
  | .ok _ =>
    let r := requestJson tr keys paths maxRetries true "enviar_json"
    (match r.1 with
     | .error e => .error e
     | .ok (s, b) => handleResponse "enviar_json" s b, r.2.2)

/-! ## Helper lemmas -/

/-- One unrolling of the login retry loop. -/
theorem loginPostGo_succ (tr : Nat → AttemptResult) (i r : Nat) (lastExc : Option Cause) :
    loginPostGo tr i (r + 1) lastExc =
      match tr i with
      | .timeout => loginPostGo tr (i + 1) r (some .timeout)
      | .netError => loginPostGo tr (i + 1) r (some .netError)
      | .resp s b =>
        if 500 ≤ s then loginPostGo tr (i + 1) r (some (.http s))
        else .ok (s, b) := rfl

/-- An attempt outcome the retry loops treat as transient. -/
def isTransient : AttemptResult → Bool
  | .timeout => true
  | .netError => true
  | .resp s _ => decide (500 ≤ s)

/-- The `last_exc` marker a transient outcome leaves behind. -/
def causeOf : AttemptResult → Cause
  | .timeout => .timeout
  | .netError => .netError
  | .resp s _ => .http s

/-- One unrolling of the per-candidate retry loop. -/
theorem pathLoop_succ (tr : Nat → AttemptResult) (i r : Nat) (lastExc : Option Cause) :
    pathLoop tr i (r + 1) lastExc =
      match tr i with
      | .timeout => pathLoop tr (i + 1) r (some .timeout)
      | .netError => pathLoop tr (i + 1) r (some .netError)
      | .resp s b =>
        if s = 404 then (.brk404, lastExc, i + 1)
        else if 500 ≤ s then pathLoop tr (i + 1) r (some (.http s))
        else (.ret s b, lastExc, i + 1) := rfl

/-- One unrolling of the candidate-path loop of `_request_json`. -/
theorem requestJsonGo_cons (tr : Nat → AttemptResult) (keys : Nat → String)
    (idem : Bool) (mr : Nat) (key p : String) (rest : List String)
    (tIdx kIdx : Nat) (lastExc : Option Cause) (trace : List (Option String)) :
    requestJsonGo tr keys idem mr key (p :: rest) tIdx kIdx lastExc trace =
      match pathLoop tr tIdx mr lastExc with
      | (.ret s b, _, tIdx2) =>
          (.ok (s, b), (if idem then kIdx + 1 else kIdx),
           trace ++ List.replicate (tIdx2 - tIdx) (if idem then some (keys kIdx) else none))
      | (.brk404, last2, tIdx2) =>
          requestJsonGo tr keys idem mr key rest tIdx2 (if idem then kIdx + 1 else kIdx) last2
            (trace ++ List.replicate (tIdx2 - tIdx) (if idem then some (keys kIdx) else none))
      | (.exhausted, last2, tIdx2) =>
          requestJsonGo tr keys idem mr key rest tIdx2 (if idem then kIdx + 1 else kIdx) last2
            (trace ++ List.replicate (tIdx2 - tIdx) (if idem then some (keys kIdx) else none))
      := rfl

/-- A run of all-transient attempts consumes the whole per-candidate budget
and records the cause of the last attempt. -/
theorem pathLoop_transient (tr : Nat → AttemptResult) :
    ∀ (r i : Nat) (lastExc : Option Cause),
      (∀ j, j < r + 1 → isTransient (tr (i + j)) = true) →
      pathLoop tr i (r + 1) lastExc
        = (.exhausted, some (causeOf (tr (i + r))), i + (r + 1)) := by
  intro r
  induction r with
  | zero =>
    intro i lastExc h
    have h0 := h 0 (by omega)
    rw [Nat.add_zero] at h0
    rw [pathLoop_succ]
    cases htr : tr i with
    | timeout => simp [htr, causeOf, pathLoop]
    | netError => simp [htr, causeOf, pathLoop]
    | resp s b =>
      rw [htr] at h0
      simp [isTransient] at h0
      have h404 : ¬ s = 404 := by omega
      simp [htr, causeOf, h404, h0, pathLoop]
  | succ n ih =>
    intro i lastExc h
    have h0 := h 0 (by omega)
    rw [Nat.add_zero] at h0
    have hrest : ∀ j, j < n + 1 → isTransient (tr (i + 1 + j)) = true := by
      intro j hj
      have := h (j + 1) (by omega)
      rwa [show i + (j + 1) = i + 1 + j by omega] at this
    have hshift1 : i + 1 + n = i + (n + 1) := by omega
    have hshift2 : i + 1 + (n + 1) = i + (n + 1 + 1) := by omega
    rw [pathLoop_succ]
    cases htr : tr i with
    | timeout =>
      have := ih (i + 1) (some .timeout) hrest
      rw [hshift1, hshift2] at this
      simpa using this
    | netError =>
      have := ih (i + 1) (some .netError) hrest
      rw [hshift1, hshift2] at this
      simpa using this
    | resp s b =>
      rw [htr] at h0
      simp [isTransient] at h0
      have h404 : ¬ s = 404 := by omega
      have := ih (i + 1) (some (.http s)) hrest
      rw [hshift1, hshift2] at this
      simpa [h404, h0] using this

/-- With at least one attempt of budget, a run in which every candidate
answers 404 on its first attempt ends in `CampaignNotFound`. -/
theorem requestJsonGo_all404 (tr : Nat → AttemptResult) (keys : Nat → String)
    (idem : Bool) (mr : Nat) (key : String) (hmr : 1 ≤ mr) :
    ∀ (paths : List String) (tIdx kIdx : Nat) (trace : List (Option String)),
      (∀ j, j < paths.length → ∃ b, tr (tIdx + j) = .resp 404 b) →
      (requestJsonGo tr keys idem mr key paths tIdx kIdx none trace).1
        = .error (.campaignNotFound key) := by
  intro paths
  induction paths with
  | nil => intro tIdx kIdx trace _; rfl
  | cons p rest ih =>
    intro tIdx kIdx trace h
    obtain ⟨b, hb⟩ := h 0 (by simp)
    rw [Nat.add_zero] at hb
    obtain ⟨m, rfl⟩ : ∃ m, mr = m + 1 := ⟨mr - 1, by omega⟩
    have hpl : pathLoop tr tIdx (m + 1) none = (.brk404, none, tIdx + 1) := by
      rw [pathLoop_succ, hb]
      simp
    rw [requestJsonGo_cons, hpl]
    exact ih (tIdx + 1) _ _ (fun j hj => by
      have := h (j + 1) (by simp; omega)
      rwa [show tIdx + (j + 1) = tIdx + 1 + j by omega] at this)

/-- A run in which every attempt times out exhausts every candidate and ends
in `ApiUnavailable` chained to the timeout. -/
theorem requestJsonGo_allTimeout (tr : Nat → AttemptResult) (keys : Nat → String)
    (idem : Bool) (mr : Nat) (key : String) (hmr : 1 ≤ mr)
    (htr : ∀ j, tr j = .timeout) :
    ∀ (paths : List String) (tIdx kIdx : Nat) (lastExc : Option Cause)
      (trace : List (Option String)), paths ≠ [] →
      (requestJsonGo tr keys idem mr key paths tIdx kIdx lastExc trace).1
        = .error (.apiUnavailable (some .timeout)) := by
  intro paths
  induction paths with
  | nil => intro _ _ _ _ hne; exact absurd rfl hne
  | cons p rest ih =>
    intro tIdx kIdx lastExc trace _
    obtain ⟨m, rfl⟩ : ∃ m, mr = m + 1 := ⟨mr - 1, by omega⟩
    have hpl := pathLoop_transient tr m tIdx lastExc
      (fun j _ => by rw [htr]; rfl)
    rw [htr (tIdx + m)] at hpl
    rw [requestJsonGo_cons, hpl]
    cases rest with
    | nil => rfl
    | cons q qs => exact ih _ _ _ _ (by simp)

/-! ## Claim theorems -/

/-- Concrete transport for the C1 retry scenario: one network-level
exception, one 502, then a 200 carrying a token. -/
def trRetryScenario : Nat → AttemptResult := fun n =>
  match n with
  | 0 => .netError
  | 1 => .resp 502 .null
  | _ => .resp 200 (.obj [("token", .str "abc")])

/-- Initial client state: no token, the `Accept` header set in `__init__`. -/
def st0 : AuthState := ⟨none, [("Accept", "application/json")]⟩

/-- C1: with `maxRetries ≥ 3`, a login whose attempts see one network
exception, then one 5xx, then a 200 whose body yields a token — a non-empty
extracted string, which is the acceptance condition `if not token` of the code —
returns that token; and any attempt that delivers a non-5xx response
(responses are never timeouts) ends the retry loop immediately with that
response. -/
theorem c1_login_retries_transients_and_shortcircuits :
    (∀ (k : Nat) (tr : Nat → AttemptResult) (st : AuthState) (b1 body : Json) (t : String),
      tr 0 = .netError → tr 1 = .resp 502 b1 → tr 2 = .resp 200 body →
      extractToken body = some t → t ≠ "" →
      (login tr (k + 3) st).1 = .ok t) ∧
    (∀ (tr : Nat → AttemptResult) (i r : Nat) (lastExc : Option Cause) (s : Nat) (b : Json),
      tr i = .resp s b → s < 500 →
      loginPostGo tr i (r + 1) lastExc = .ok (s, b)) := by
  constructor
  · intro k tr st b1 body t h0 h1 h2 hex ht
    have s1 : loginPostGo tr 0 (k + 3) none = loginPostGo tr 1 (k + 2) (some .netError) := by
      rw [show k + 3 = (k + 2) + 1 from rfl, loginPostGo_succ, h0]
    have s2 : loginPostGo tr 1 (k + 2) (some .netError)
        = loginPostGo tr 2 (k + 1) (some (.http 502)) := by
      rw [show k + 2 = (k + 1) + 1 from rfl, loginPostGo_succ, h1]
      norm_num
    have s3 : loginPostGo tr 2 (k + 1) (some (.http 502)) = .ok (200, body) := by
      rw [loginPostGo_succ, h2]
      norm_num
    have hloop : loginPost tr (k + 3) = .ok (200, body) := by
      unfold loginPost
      rw [s1, s2, s3]
    unfold login
    rw [hloop]
    simp [handleLoginResponse, hex, ht]
  · intro tr i r lastExc s b hresp hlt
    rw [loginPostGo_succ, hresp]
    simp
    omega

/-- Witness for `c1_login_retries_transients_and_shortcircuits` at the
concrete scenario transport. -/
theorem c1_witness :
    (login trRetryScenario 3 st0).1 = .ok "abc" ∧
    loginPostGo trRetryScenario 2 1 none = .ok (200, .obj [("token", .str "abc")]) := by
  constructor
  · exact c1_login_retries_transients_and_shortcircuits.1 0 trRetryScenario st0
      .null (.obj [("token", .str "abc")]) "abc" rfl rfl rfl
      (by simp [extractToken, jlookup]) (by decide)
  · exact c1_login_retries_transients_and_shortcircuits.2 trRetryScenario 2 0 none 200
      (.obj [("token", .str "abc")]) rfl (by norm_num)

/-- When every transport event is transient or a 404, the per-candidate loop
never returns a response; its updated `last_exc` is either the inherited one
or the marker of some transient event of the run. -/
theorem pathLoop_no_ret (tr : Nat → AttemptResult)
    (htr : ∀ j, isTransient (tr j) = true ∨ ∃ b, tr j = .resp 404 b) :
    ∀ (r i : Nat) (lastExc : Option Cause),
      ∃ ex last2 i2, pathLoop tr i r lastExc = (ex, last2, i2) ∧
        (ex = .brk404 ∨ ex = .exhausted) ∧
        (last2 = lastExc ∨
          ∃ j, last2 = some (causeOf (tr j)) ∧ isTransient (tr j) = true) := by
  intro r
  induction r with
  | zero =>
    intro i lastExc
    exact ⟨.exhausted, lastExc, i, rfl, Or.inr rfl, Or.inl rfl⟩
  | succ n ih =>
    intro i lastExc
    cases htr2 : tr i with
    | timeout =>
      obtain ⟨ex, last2, i2, heq, hex, hlast⟩ := ih (i + 1) (some .timeout)
      refine ⟨ex, last2, i2, ?_, hex, ?_⟩
      · rw [pathLoop_succ, htr2]
        exact heq
      · rcases hlast with rfl | h
        · exact Or.inr ⟨i, by rw [htr2]; rfl, by rw [htr2]; rfl⟩
        · exact Or.inr h
    | netError =>
      obtain ⟨ex, last2, i2, heq, hex, hlast⟩ := ih (i + 1) (some .netError)
      refine ⟨ex, last2, i2, ?_, hex, ?_⟩
      · rw [pathLoop_succ, htr2]
        exact heq
      · rcases hlast with rfl | h
        · exact Or.inr ⟨i, by rw [htr2]; rfl, by rw [htr2]; rfl⟩
        · exact Or.inr h
    | resp s b =>
      rcases htr i with htrans | ⟨b2, h404⟩
      · rw [htr2] at htrans
        simp [isTransient] at htrans
        have hne : ¬ s = 404 := by omega
        obtain ⟨ex, last2, i2, heq, hex, hlast⟩ := ih (i + 1) (some (.http s))
        refine ⟨ex, last2, i2, ?_, hex, ?_⟩
        · rw [pathLoop_succ, htr2]
          simp only [hne, htrans, if_true, if_false]
          exact heq
        · rcases hlast with rfl | h
          · refine Or.inr ⟨i, by rw [htr2]; rfl, ?_⟩
            rw [htr2]
            simp [isTransient, htrans]
          · exact Or.inr h
      · rw [htr2] at h404
        injection h404 with hs hb
        subst hs
        refine ⟨.brk404, lastExc, i + 1, ?_, Or.inl rfl, Or.inl rfl⟩
        rw [pathLoop_succ, htr2]
        simp
    
/-- A run in which every attempt is transient (timeout, network error or 5xx
in any mixture) exhausts every candidate; `_request_json` then raises per
`finalRaise` applied to the marker of the very last attempt of the run. -/
theorem requestJsonGo_allTransient (tr : Nat → AttemptResult) (keys : Nat → String)
    (idem : Bool) (mr : Nat) (key : String) (hmr : 1 ≤ mr)
    (htr : ∀ j, isTransient (tr j) = true) :
    ∀ (paths : List String) (tIdx kIdx : Nat) (lastExc : Option Cause)
      (trace : List (Option String)), paths ≠ [] →
      (requestJsonGo tr keys idem mr key paths tIdx kIdx lastExc trace).1
        = .error (finalRaise (some (causeOf (tr (tIdx + paths.length * mr - 1)))) key) := by
  intro paths
  induction paths with
  | nil => intro _ _ _ _ hne; exact absurd rfl hne
  | cons p rest ih =>
    intro tIdx kIdx lastExc trace _
    obtain ⟨m, rfl⟩ : ∃ m, mr = m + 1 := ⟨mr - 1, by omega⟩
    have hpl := pathLoop_transient tr m tIdx lastExc (fun j _ => htr _)
    rw [requestJsonGo_cons, hpl]
    cases rest with
    | nil =>
      rw [show tIdx + (p :: ([] : List String)).length * (m + 1) - 1 = tIdx + m by
        simp only [List.length_cons, List.length_nil]
        omega]
      rfl
    | cons q qs =>
      rw [show tIdx + (p :: q :: qs).length * (m + 1) - 1
          = (tIdx + (m + 1)) + (q :: qs).length * (m + 1) - 1 by
        simp only [List.length_cons]
        rw [Nat.add_mul]
        omega]
      exact ih (tIdx + (m + 1)) _ _ _ (by simp)

/-- Any run offering no usable response (every attempt transient or 404)
ends in the `finalRaise` of a final `last_exc` that is either still absent
or the marker of some transient event of the run. -/
theorem requestJsonGo_no_usable (tr : Nat → AttemptResult) (keys : Nat → String)
    (idem : Bool) (mr : Nat) (key : String)
    (htr : ∀ j, isTransient (tr j) = true ∨ ∃ b, tr j = .resp 404 b) :
    ∀ (paths : List String) (tIdx kIdx : Nat) (lastExc : Option Cause)
      (trace : List (Option String)),
      (lastExc = none ∨
        ∃ j, lastExc = some (causeOf (tr j)) ∧ isTransient (tr j) = true) →
      ∃ lastF, (requestJsonGo tr keys idem mr key paths tIdx kIdx lastExc trace).1
          = .error (finalRaise lastF key) ∧
        (lastF = none ∨
          ∃ j, lastF = some (causeOf (tr j)) ∧ isTransient (tr j) = true) := by
  intro paths
  induction paths with
  | nil =>
    intro tIdx kIdx lastExc trace hlast
    exact ⟨lastExc, rfl, hlast⟩
  | cons p rest ih =>
    intro tIdx kIdx lastExc trace hlast
    obtain ⟨ex, last2, i2, heq, hex, hlast2⟩ := pathLoop_no_ret tr htr mr tIdx lastExc
    have hlast3 : last2 = none ∨
        ∃ j, last2 = some (causeOf (tr j)) ∧ isTransient (tr j) = true := by
      rcases hlast2 with rfl | h
      · exact hlast
      · exact Or.inr h
    rw [requestJsonGo_cons, heq]
    rcases hex with rfl | rfl
    · exact ih i2 _ last2 _ hlast3
    · exact ih i2 _ last2 _ hlast3

/-- C2 counterexample: a single candidate whose one allowed attempt times
out is "exhausted without a usable response", yet `_request_json` raises
`ApiUnavailable`, not `CampaignNotFound`. -/
theorem c2_counterexample :
    (requestJson (fun _ => .timeout) (fun n => toString n)
        ["campaign lists"] 1 false "listar_campanhas").1
      = .error (.apiUnavailable (some .timeout)) ∧
    Err.apiUnavailable (some .timeout) ≠ Err.campaignNotFound "listar_campanhas" := by
  exact ⟨rfl, by decide⟩

/-- C2 (amended): a 404 on a candidate exits that candidate after the one
attempt, leaving `last_exc` untouched; all-transient attempts consume the
whole retry budget of that candidate, recording the last cause; both a 404
break and an exhausted budget fall through to the next candidate; a run
whose candidates all answer 404 ends in `CampaignNotFound` tagged with the
operation key, while exhaustion whose last recorded failure is a timeout or
a network error ends in `ApiUnavailable` instead (all-timeout and
all-network-error conjuncts); more generally, any run of transient attempts
in any mixture raises per `finalRaise` on the marker of its last attempt,
any run offering no usable response (transients and 404s mixed) raises per
`finalRaise` on a final `last_exc` that is absent or the marker of some
transient attempt, and `finalRaise` maps an absent or 5xx marker to
`CampaignNotFound` and a timeout or network-error marker to
`ApiUnavailable`. -/
theorem c2_candidate_fallback_amended :
    (∀ (tr : Nat → AttemptResult) (i r : Nat) (lastExc : Option Cause) (b : Json),
      tr i = .resp 404 b →
      pathLoop tr i (r + 1) lastExc = (.brk404, lastExc, i + 1)) ∧
    (∀ (tr : Nat → AttemptResult) (r i : Nat) (lastExc : Option Cause),
      (∀ j, j < r + 1 → isTransient (tr (i + j)) = true) →
      pathLoop tr i (r + 1) lastExc
        = (.exhausted, some (causeOf (tr (i + r))), i + (r + 1))) ∧
    (∀ (tr : Nat → AttemptResult) (keys : Nat → String) (idem : Bool) (mr : Nat)
      (key p : String) (rest : List String) (tIdx kIdx : Nat)
      (lastExc : Option Cause) (trace : List (Option String))
      (ex : LoopExit) (last2 : Option Cause) (tIdx2 : Nat),
      pathLoop tr tIdx mr lastExc = (ex, last2, tIdx2) →
      ex = .brk404 ∨ ex = .exhausted →
      (requestJsonGo tr keys idem mr key (p :: rest) tIdx kIdx lastExc trace).1 =
      (requestJsonGo tr keys idem mr key rest tIdx2 (if idem then kIdx + 1 else kIdx) last2
        (trace ++ List.replicate (tIdx2 - tIdx)
          (if idem then some (keys kIdx) else none))).1) ∧
    (∀ (paths : List String) (tr : Nat → AttemptResult) (keys : Nat → String)
      (idem : Bool) (mr : Nat) (key : String), 1 ≤ mr →
      (∀ j, j < paths.length → ∃ b, tr j = .resp 404 b) →
      (requestJson tr keys paths mr idem key).1 = .error (.campaignNotFound key)) ∧
    (∀ (paths : List String) (tr : Nat → AttemptResult) (keys : Nat → String)
      (idem : Bool) (mr : Nat) (key : String), paths ≠ [] → 1 ≤ mr →
      (∀ j, tr j = .timeout) →
      (requestJson tr keys paths mr idem key).1
        = .error (.apiUnavailable (some .timeout))) ∧
    (∀ (paths : List String) (tr : Nat → AttemptResult) (keys : Nat → String)
      (idem : Bool) (mr : Nat) (key : String), paths ≠ [] → 1 ≤ mr →
      (∀ j, tr j = .netError) →
      (requestJson tr keys paths mr idem key).1
        = .error (.apiUnavailable (some .netError))) ∧
    (∀ (paths : List String) (tr : Nat → AttemptResult) (keys : Nat → String)
      (idem : Bool) (mr : Nat) (key : String), paths ≠ [] → 1 ≤ mr →
      (∀ j, isTransient (tr j) = true) →
      (requestJson tr keys paths mr idem key).1
        = .error (finalRaise (some (causeOf (tr (paths.length * mr - 1)))) key)) ∧
    (∀ (paths : List String) (tr : Nat → AttemptResult) (keys : Nat → String)
      (idem : Bool) (mr : Nat) (key : String),
      (∀ j, isTransient (tr j) = true ∨ ∃ b, tr j = .resp 404 b) →
      ∃ lastF, (requestJson tr keys paths mr idem key).1
          = .error (finalRaise lastF key) ∧
        (lastF = none ∨
          ∃ j, lastF = some (causeOf (tr j)) ∧ isTransient (tr j) = true)) ∧
    (∀ k2 : String,
      finalRaise none k2 = .campaignNotFound k2 ∧
      finalRaise (some .timeout) k2 = .apiUnavailable (some .timeout) ∧
      finalRaise (some .netError) k2 = .apiUnavailable (some .netError) ∧
      ∀ s : Nat, finalRaise (some (.http s)) k2 = .campaignNotFound k2) := by
  refine ⟨?_, pathLoop_transient, ?_, ?_, ?_, ?_, ?_, ?_, ?_⟩
  · intro tr i r lastExc b h
    rw [pathLoop_succ, h]
    simp
  · intro tr keys idem mr key p rest tIdx kIdx lastExc trace ex last2 tIdx2 hpl hex
    rw [requestJsonGo_cons, hpl]
    rcases hex with rfl | rfl <;> rfl
  · intro paths tr keys idem mr key hmr h
    exact requestJsonGo_all404 tr keys idem mr key hmr paths 0 0 [] (by simpa using h)
  · intro paths tr keys idem mr key hne hmr htr
    exact requestJsonGo_allTimeout tr keys idem mr key hmr htr paths 0 0 none [] hne
  · intro paths tr keys idem mr key hne hmr htr
    have h7 := requestJsonGo_allTransient tr keys idem mr key hmr
      (fun j => by rw [htr j]; rfl) paths 0 0 none [] hne
    rw [htr] at h7
    exact h7
  · intro paths tr keys idem mr key hne hmr htr
    have h7 := requestJsonGo_allTransient tr keys idem mr key hmr htr paths 0 0 none [] hne
    rwa [Nat.zero_add] at h7
  · intro paths tr keys idem mr key htr
    exact requestJsonGo_no_usable tr keys idem mr key htr paths 0 0 none [] (Or.inl rfl)
  · intro k2
    exact ⟨rfl, rfl, rfl, fun s => rfl⟩

/-- Concrete transports for the C2 witness. -/
def trW404 : Nat → AttemptResult := fun _ => .resp 404 .null

def trWTimeout : Nat → AttemptResult := fun _ => .timeout

/-- A mixed all-transient transport (timeout first, 5xx afterwards). -/
def trWMixed : Nat → AttemptResult := fun n =>
  match n with
  | 0 => .timeout
  | _ => .resp 500 .null

/-- A no-usable-response transport mixing a 404 and timeouts. -/
def trW404Mix : Nat → AttemptResult := fun n =>
  match n with
  | 0 => .resp 404 .null
  | _ => .timeout

/-- Witness for `c2_candidate_fallback_amended` at concrete runs. -/
theorem c2_witness :
    pathLoop trW404 0 1 none = (.brk404, none, 1) ∧
    pathLoop trWTimeout 3 2 none = (.exhausted, some .timeout, 5) ∧
    (requestJsonGo trW404 (fun n => toString n) false 1 "op" ["a", "b"] 0 0 none []).1 =
      (requestJsonGo trW404 (fun n => toString n) false 1 "op" ["b"] 1 0 none
        (List.replicate 1 none)).1 ∧
    (requestJson trW404 (fun n => toString n) ["a", "b"] 1 false "op").1
      = .error (.campaignNotFound "op") ∧
    (requestJson trWTimeout (fun n => toString n) ["a"] 2 false "op").1
      = .error (.apiUnavailable (some .timeout)) ∧
    (requestJson (fun _ => .netError) (fun n => toString n) ["a"] 2 false "op").1
      = .error (.apiUnavailable (some .netError)) ∧
    (requestJson trWMixed (fun n => toString n) ["a", "b"] 1 false "op").1
      = .error (.campaignNotFound "op") ∧
    (∃ lastF, (requestJson trW404Mix (fun n => toString n) ["a", "b"] 1 false "op").1
        = .error (finalRaise lastF "op") ∧
      (lastF = none ∨
        ∃ j, lastF = some (causeOf (trW404Mix j)) ∧ isTransient (trW404Mix j) = true)) := by
  refine ⟨?_, ?_, ?_, ?_, ?_, ?_, ?_, ?_⟩
  · exact c2_candidate_fallback_amended.1 trW404 0 0 none .null rfl
  · exact c2_candidate_fallback_amended.2.1 trWTimeout 1 3 none (fun j _ => rfl)
  · exact c2_candidate_fallback_amended.2.2.1 trW404 (fun n => toString n) false 1 "op"
      "a" ["b"] 0 0 none [] .brk404 none 1 rfl (Or.inl rfl)
  · exact c2_candidate_fallback_amended.2.2.2.1 ["a", "b"] trW404 (fun n => toString n)
      false 1 "op" (by omega) (fun j _ => ⟨.null, rfl⟩)
  · exact c2_candidate_fallback_amended.2.2.2.2.1 ["a"] trWTimeout (fun n => toString n)
      false 2 "op" (by simp) (by omega) (fun j => rfl)
  · exact c2_candidate_fallback_amended.2.2.2.2.2.1 ["a"] (fun _ => .netError)
      (fun n => toString n) false 2 "op" (by simp) (by omega) (fun j => rfl)
  · exact c2_candidate_fallback_amended.2.2.2.2.2.2.1 ["a", "b"] trWMixed
      (fun n => toString n) false 1 "op" (by simp) (by omega)
      (fun j => by cases j <;> rfl)
  · exact c2_candidate_fallback_amended.2.2.2.2.2.2.2.1 ["a", "b"] trW404Mix
      (fun n => toString n) false 1 "op"
      (fun j => by
        cases j with
        | zero => exact Or.inr ⟨.null, rfl⟩
        | succ n => exact Or.inl rfl)

/-- C3 code-bug probe: when every attempt on the only candidate is an HTTP
5xx (a transient failure), `_request_json` raises `CampaignNotFound` instead
of the `ApiUnavailable` that the auth client `login` raises in the analogous
all-5xx exhaustion. -/
theorem c3_transient_exhaustion_probe :
    (requestJson (fun _ => .resp 500 .null) (fun n => toString n)
        ["create mailing json"] 3 true "enviar_json").1
      = .error (.campaignNotFound "enviar_json") ∧
    (login (fun _ => .resp 500 .null) 3 st0).1
      = .error (.apiUnavailable (some (.http 500))) := by
  exact ⟨rfl, rfl⟩

/-- Every idempotency key an idempotent call attaches comes from the
contiguous block of the uuid supply the call consumes: key indices lie in
`[kIdx, kNext)` where `kNext` is the returned next-unused index. -/
theorem requestJsonGo_key_range (tr : Nat → AttemptResult) (keys : Nat → String)
    (mr : Nat) (key : String) :
    ∀ (paths : List String) (tIdx kIdx : Nat) (lastExc : Option Cause)
      (trace : List (Option String)),
      kIdx ≤ (requestJsonGo tr keys true mr key paths tIdx kIdx lastExc trace).2.1 ∧
      ∀ x ∈ (requestJsonGo tr keys true mr key paths tIdx kIdx lastExc trace).2.2,
        x ∈ trace ∨ ∃ i, kIdx ≤ i ∧
          i < (requestJsonGo tr keys true mr key paths tIdx kIdx lastExc trace).2.1 ∧
          x = some (keys i) := by
  intro paths
  induction paths with
  | nil =>
    intro tIdx kIdx lastExc trace
    exact ⟨Nat.le_refl _, fun x hx => Or.inl hx⟩
  | cons p rest ih =>
    intro tIdx kIdx lastExc trace
    rw [requestJsonGo_cons]
    rcases hpl : pathLoop tr tIdx mr lastExc with ⟨ex, last2, tIdx2⟩
    cases ex with
    | ret s b =>
      refine ⟨by simp, ?_⟩
      intro x hx
      simp at hx
      rcases hx with hx | hx
      · exact Or.inl hx
      · exact Or.inr ⟨kIdx, Nat.le_refl _, by simp, hx.2⟩
    | brk404 =>
      obtain ⟨hle, hmem⟩ := ih tIdx2 (kIdx + 1) last2
        (trace ++ List.replicate (tIdx2 - tIdx) (some (keys kIdx)))
      refine ⟨by simpa using Nat.le_trans (Nat.le_succ kIdx) hle, ?_⟩
      intro x hx
      rcases hmem x (by simpa using hx) with hx2 | ⟨i, hi1, hi2, hi3⟩
      · rcases List.mem_append.mp hx2 with hx3 | hx3
        · exact Or.inl hx3
        · exact Or.inr ⟨kIdx, Nat.le_refl _,
            Nat.lt_of_lt_of_le (Nat.lt_succ_self kIdx) hle,
            List.eq_of_mem_replicate hx3⟩
      · exact Or.inr ⟨i, Nat.le_trans (Nat.le_succ kIdx) hi1, hi2, hi3⟩
    | exhausted =>
      obtain ⟨hle, hmem⟩ := ih tIdx2 (kIdx + 1) last2
        (trace ++ List.replicate (tIdx2 - tIdx) (some (keys kIdx)))
      refine ⟨by simpa using Nat.le_trans (Nat.le_succ kIdx) hle, ?_⟩
      intro x hx
      rcases hmem x (by simpa using hx) with hx2 | ⟨i, hi1, hi2, hi3⟩
      · rcases List.mem_append.mp hx2 with hx3 | hx3
        · exact Or.inl hx3
        · exact Or.inr ⟨kIdx, Nat.le_refl _,
            Nat.lt_of_lt_of_le (Nat.lt_succ_self kIdx) hle,
            List.eq_of_mem_replicate hx3⟩
      · exact Or.inr ⟨i, Nat.le_trans (Nat.le_succ kIdx) hi1, hi2, hi3⟩

/-- C4 counterexample: an idempotent call whose first candidate 404s makes
its two attempts with two distinct idempotency keys — the key is regenerated
per candidate path, not constant across the logical call. -/
theorem c4_counterexample :
    (requestJson (fun n => if n = 0 then .resp 404 .null else .resp 200 .null)
        (fun n => "K" ++ toString n)
        ["create malling list", "create mailing list"] 3 true "criar_container").2.2
      = [some "K0", some "K1"] ∧ ("K0" : String) ≠ "K1" := by
  exact ⟨rfl, by decide⟩

/-- `requestJsonGo_cons` specialized to idempotent calls, with the key
bookkeeping reduced. -/
theorem requestJsonGo_cons_idem (tr : Nat → AttemptResult) (keys : Nat → String)
    (mr : Nat) (key p : String) (rest : List String)
    (tIdx kIdx : Nat) (lastExc : Option Cause) (trace : List (Option String)) :
    requestJsonGo tr keys true mr key (p :: rest) tIdx kIdx lastExc trace =
      match pathLoop tr tIdx mr lastExc with
      | (.ret s b, _, tIdx2) =>
          (.ok (s, b), kIdx + 1,
           trace ++ List.replicate (tIdx2 - tIdx) (some (keys kIdx)))
      | (.brk404, last2, tIdx2) =>
          requestJsonGo tr keys true mr key rest tIdx2 (kIdx + 1) last2
            (trace ++ List.replicate (tIdx2 - tIdx) (some (keys kIdx)))
      | (.exhausted, last2, tIdx2) =>
          requestJsonGo tr keys true mr key rest tIdx2 (kIdx + 1) last2
            (trace ++ List.replicate (tIdx2 - tIdx) (some (keys kIdx)))
      := rfl

/-- The idempotency-key trace made of one constant block per candidate
tried: block after block, the key index advances by one. -/
def blockTrace (keys : Nat → String) : Nat → List Nat → List (Option String)
  | _, [] => []
  | kIdx, c :: cs =>
    List.replicate c (some (keys kIdx)) ++ blockTrace keys (kIdx + 1) cs

/-- The attempt-keys of the i-th candidate block of a decomposition: the
block is constant, carrying the key of supply index `kIdx + i`. -/
def blockEntries (keys : Nat → String) (kIdx : Nat) (counts : List Nat)
    (i : Nat) : List (Option String) :=
  List.replicate ((counts.get? i).getD 0) (some (keys (kIdx + i)))

theorem blockEntries_zero (keys : Nat → String) (kIdx c : Nat) (cs : List Nat) :
    blockEntries keys kIdx (c :: cs) 0 = List.replicate c (some (keys kIdx)) := by
  unfold blockEntries
  simp

theorem blockEntries_succ (keys : Nat → String) (kIdx c : Nat) (cs : List Nat)
    (i : Nat) :
    blockEntries keys kIdx (c :: cs) (i + 1) = blockEntries keys (kIdx + 1) cs i := by
  unfold blockEntries
  rw [show kIdx + (i + 1) = kIdx + 1 + i by omega]
  rfl

/-- The block-by-block trace is the concatenation of its indexed blocks. -/
theorem blockTrace_eq_join (keys : Nat → String) :
    ∀ (counts : List Nat) (kIdx : Nat),
      blockTrace keys kIdx counts
        = ((List.range counts.length).map (blockEntries keys kIdx counts)).flatten := by
  intro counts
  induction counts with
  | nil => intro kIdx; rfl
  | cons c cs ih =>
    intro kIdx
    rw [show blockTrace keys kIdx (c :: cs)
        = List.replicate c (some (keys kIdx)) ++ blockTrace keys (kIdx + 1) cs from rfl]
    rw [ih (kIdx + 1), List.length_cons, List.range_succ_eq_map, List.map_cons,
      List.map_map, List.flatten_cons, blockEntries_zero]
    rw [show blockEntries keys kIdx (c :: cs) ∘ Nat.succ
        = blockEntries keys (kIdx + 1) cs
      from funext fun i => blockEntries_succ keys kIdx c cs i]

/-- The whole attempt trace of an idempotent call decomposes into one
constant block per candidate tried (at most one block per configured
candidate), block `i` carrying the key of supply index `kIdx + i`, and the
next-unused supply index advances by exactly the number of blocks. -/
theorem requestJsonGo_trace_struct (tr : Nat → AttemptResult)
    (keys : Nat → String) (mr : Nat) (key : String) :
    ∀ (paths : List String) (tIdx kIdx : Nat) (lastExc : Option Cause)
      (trace0 : List (Option String)),
      ∃ counts : List Nat, counts.length ≤ paths.length ∧
        (requestJsonGo tr keys true mr key paths tIdx kIdx lastExc trace0).2.2
          = trace0 ++ blockTrace keys kIdx counts ∧
        (requestJsonGo tr keys true mr key paths tIdx kIdx lastExc trace0).2.1
          = kIdx + counts.length := by
  intro paths
  induction paths with
  | nil =>
    intro tIdx kIdx lastExc trace0
    exact ⟨[], by simp, by simp [requestJsonGo, blockTrace], by simp [requestJsonGo]⟩
  | cons p rest ih =>
    intro tIdx kIdx lastExc trace0
    rw [requestJsonGo_cons_idem]
    rcases hpl : pathLoop tr tIdx mr lastExc with ⟨ex, last2, tIdx2⟩
    cases ex with
    | ret s b =>
      refine ⟨[tIdx2 - tIdx], by simp, by simp [blockTrace], by simp⟩
    | brk404 =>
      obtain ⟨counts, hlen, htr2, hk⟩ := ih tIdx2 (kIdx + 1) last2
        (trace0 ++ List.replicate (tIdx2 - tIdx) (some (keys kIdx)))
      refine ⟨(tIdx2 - tIdx) :: counts, by simpa using hlen, ?_, ?_⟩
      · rw [htr2, show blockTrace keys kIdx ((tIdx2 - tIdx) :: counts)
          = List.replicate (tIdx2 - tIdx) (some (keys kIdx))
            ++ blockTrace keys (kIdx + 1) counts from rfl, List.append_assoc]
      · rw [hk, List.length_cons]
        omega
    | exhausted =>
      obtain ⟨counts, hlen, htr2, hk⟩ := ih tIdx2 (kIdx + 1) last2
        (trace0 ++ List.replicate (tIdx2 - tIdx) (some (keys kIdx)))
      refine ⟨(tIdx2 - tIdx) :: counts, by simpa using hlen, ?_, ?_⟩
      · rw [htr2, show blockTrace keys kIdx ((tIdx2 - tIdx) :: counts)
          = List.replicate (tIdx2 - tIdx) (some (keys kIdx))
            ++ blockTrace keys (kIdx + 1) counts from rfl, List.append_assoc]
      · rw [hk, List.length_cons]
        omega

/-- C4 (amended): during an idempotent call the attempt trace decomposes
into one constant block per candidate path variant tried — so every HTTP
attempt against the same variant carries the same key, each variant drawing
the next key of the uuid supply; with an injective (collision-free) supply,
attempts belonging to different variant blocks carry distinct values; every
key of a call is drawn from the supply block `[0, kNext)` the call consumes,
so a second call continuing the supply at `kNext` carries values distinct
from every value of the first (injective supply). -/
theorem c4_idempotency_keys_amended :
    (∀ (tr : Nat → AttemptResult) (keys : Nat → String) (paths : List String)
      (mr : Nat) (key : String),
      ∃ counts : List Nat, counts.length ≤ paths.length ∧
        (requestJson tr keys paths mr true key).2.2
          = ((List.range counts.length).map (blockEntries keys 0 counts)).flatten ∧
        (requestJson tr keys paths mr true key).2.1 = counts.length) ∧
    (∀ (keys : Nat → String) (kIdx : Nat) (counts : List Nat) (i : Nat)
      (x : Option String),
      x ∈ blockEntries keys kIdx counts i → x = some (keys (kIdx + i))) ∧
    (∀ (keys : Nat → String) (kIdx : Nat) (counts : List Nat) (i j : Nat)
      (x y : Option String), Function.Injective keys → i ≠ j →
      x ∈ blockEntries keys kIdx counts i → y ∈ blockEntries keys kIdx counts j →
      x ≠ y) ∧
    (∀ (tr : Nat → AttemptResult) (keys : Nat → String) (p : String) (mr : Nat)
      (key : String) (x : Option String),
      x ∈ (requestJson tr keys [p] mr true key).2.2 → x = some (keys 0)) ∧
    (∀ (tr : Nat → AttemptResult) (keys : Nat → String) (paths : List String)
      (mr : Nat) (key : String) (s : String),
      some s ∈ (requestJson tr keys paths mr true key).2.2 →
      ∃ i, i < (requestJson tr keys paths mr true key).2.1 ∧ s = keys i) ∧
    (∀ (u : Nat → String) (tr1 tr2 : Nat → AttemptResult)
      (paths1 paths2 : List String) (mr1 mr2 : Nat) (key1 key2 : String)
      (s1 s2 : String), Function.Injective u →
      some s1 ∈ (requestJson tr1 u paths1 mr1 true key1).2.2 →
      some s2 ∈ (requestJson tr2
        (fun n => u ((requestJson tr1 u paths1 mr1 true key1).2.1 + n))
        paths2 mr2 true key2).2.2 →
      s1 ≠ s2) := by
  refine ⟨?_, ?_, ?_, ?_, ?_, ?_⟩
  · intro tr keys paths mr key
    obtain ⟨counts, hlen, htr2, hk⟩ :=
      requestJsonGo_trace_struct tr keys mr key paths 0 0 none []
    refine ⟨counts, hlen, ?_, by rw [← Nat.zero_add counts.length]; exact hk⟩
    rw [show (requestJson tr keys paths mr true key).2.2
        = (requestJsonGo tr keys true mr key paths 0 0 none []).2.2 from rfl,
      htr2, ← blockTrace_eq_join]
    rfl
  · intro keys kIdx counts i x hx
    unfold blockEntries at hx
    exact List.eq_of_mem_replicate hx
  · intro keys kIdx counts i j x y hinj hij hx hy heq
    unfold blockEntries at hx hy
    have hx2 := List.eq_of_mem_replicate hx
    have hy2 := List.eq_of_mem_replicate hy
    rw [hx2, hy2] at heq
    have h2 := hinj (Option.some.inj heq)
    omega
  · intro tr keys p mr key x hx
    unfold requestJson at hx
    rw [requestJsonGo_cons] at hx
    rcases hpl : pathLoop tr 0 mr none with ⟨ex, last2, tIdx2⟩
    rw [hpl] at hx
    cases ex with
    | ret s b =>
      simp at hx
      exact hx.2
    | brk404 =>
      simp [requestJsonGo] at hx
      exact hx.2
    | exhausted =>
      simp [requestJsonGo] at hx
      exact hx.2
  · intro tr keys paths mr key s hs
    unfold requestJson at hs ⊢
    rcases (requestJsonGo_key_range tr keys mr key paths 0 0 none []).2 _ hs
      with h | ⟨i, _, hi2, hi3⟩
    · simp at h
    · exact ⟨i, hi2, Option.some.inj hi3⟩
  · intro u tr1 tr2 paths1 paths2 mr1 mr2 key1 key2 s1 s2 hinj h1 h2
    have r1 : ∃ i, i < (requestJson tr1 u paths1 mr1 true key1).2.1 ∧ s1 = u i := by
      unfold requestJson at h1 ⊢
      rcases (requestJsonGo_key_range tr1 u mr1 key1 paths1 0 0 none []).2 _ h1
        with h | ⟨i, _, hi2, hi3⟩
      · simp at h
      · exact ⟨i, hi2, Option.some.inj hi3⟩
    have r2 : ∃ j2, s2 = u ((requestJson tr1 u paths1 mr1 true key1).2.1 + j2) := by
      unfold requestJson at h2
      rcases (requestJsonGo_key_range tr2
          (fun n => u ((requestJson tr1 u paths1 mr1 true key1).2.1 + n))
          mr2 key2 paths2 0 0 none []).2 _ h2 with h | ⟨j2, _, _, hj3⟩
      · simp at h
      · exact ⟨j2, Option.some.inj hj3⟩
    obtain ⟨i, hi, hs1⟩ := r1
    obtain ⟨j2, hs2⟩ := r2
    intro heq
    rw [hs1, hs2] at heq
    have := hinj heq
    omega

/-- Concrete single-attempt transport for the C4 witness. -/
def trW200 : Nat → AttemptResult := fun _ => .resp 200 .null

/-- Concrete uuid supply for the C4 witness. -/
def keysW : Nat → String := fun n => "K" ++ toString n

/-- A concretely injective uuid supply for the C4 witness. -/
def keysInj : Nat → String := fun n => String.mk (List.replicate n (Char.ofNat 97))

theorem keysInj_injective : Function.Injective keysInj := by
  intro a b h
  have h2 : List.replicate a (Char.ofNat 97) = List.replicate b (Char.ofNat 97) :=
    congrArg String.data h
  have h3 := congrArg List.length h2
  simpa using h3

/-- Witness for `c4_idempotency_keys_amended` at concrete runs. -/
theorem c4_witness :
    (∃ counts : List Nat, counts.length ≤ (["a", "b"] : List String).length ∧
      (requestJson trW200 keysW ["a", "b"] 1 true "op").2.2
        = ((List.range counts.length).map (blockEntries keysW 0 counts)).flatten ∧
      (requestJson trW200 keysW ["a", "b"] 1 true "op").2.1 = counts.length) ∧
    (some "K1" : Option String) = some (keysW (0 + 1)) ∧
    (some (keysInj 0) : Option String) ≠ some (keysInj 1) ∧
    (some "K0" : Option String) = some (keysW 0) ∧
    (∃ i, i < (requestJson trW200 keysW ["a"] 1 true "op").2.1 ∧ "K0" = keysW i) ∧
    keysInj 0 ≠ keysInj 1 := by
  refine ⟨?_, ?_, ?_, ?_, ?_, ?_⟩
  · exact c4_idempotency_keys_amended.1 trW200 keysW ["a", "b"] 1 "op"
  · exact c4_idempotency_keys_amended.2.1 keysW 0 [1, 2] 1 (some "K1") (by decide)
  · exact c4_idempotency_keys_amended.2.2.1 keysInj 0 [1, 1] 0 1
      (some (keysInj 0)) (some (keysInj 1)) keysInj_injective (by omega)
      (by decide) (by decide)
  · exact c4_idempotency_keys_amended.2.2.2.1 trW200 keysW "a" 1 "op"
      (some "K0") (by decide)
  · exact c4_idempotency_keys_amended.2.2.2.2.1 trW200 keysW ["a"] 1 "op" "K0" (by decide)
  · exact c4_idempotency_keys_amended.2.2.2.2.2 keysInj trW200 trW200 ["a"] ["b"]
      1 1 "op" "op2" (keysInj 0) (keysInj 1) keysInj_injective (by decide) (by decide)

/-- C5: `is_autenticado` holds exactly when a token is stored; a successful
login leaves a state whose `auth_headers()` is the bearer header of the
returned token and which is authenticated; a token-less state (initial,
after logout, after expiry) makes `auth_headers()` raise `Unauthorized` and
`is_autenticado` false; and a failed login leaves the state unchanged, so an
unauthenticated client stays unauthenticated. -/
theorem c5_token_state_invariants :
    (∀ st : AuthState, isAutenticado st = true ↔ st.token ≠ none) ∧
    (∀ (tr : Nat → AttemptResult) (mr : Nat) (st : AuthState) (tok : String)
      (st2 : AuthState), login tr mr st = (.ok tok, st2) →
      authHeaders st2 = .ok [("Authorization", "Bearer " ++ tok)] ∧
      isAutenticado st2 = true) ∧
    (∀ st : AuthState, st.token = none →
      authHeaders st = .error .unauthorized ∧ isAutenticado st = false) ∧
    (∀ (tr : Nat → AttemptResult) (mr : Nat) (st : AuthState) (e : Err)
      (st2 : AuthState), login tr mr st = (.error e, st2) →
      st2 = st ∧ (st.token = none → isAutenticado st2 = false)) := by
  refine ⟨?_, ?_, ?_, ?_⟩
  · intro st
    cases h : st.token <;> simp [isAutenticado, h]
  · intro tr mr st tok st2 h
    cases hp : loginPost tr mr with
    | error c =>
      rw [show login tr mr st = (.error (.apiUnavailable c), st) by
        unfold login; rw [hp]] at h
      simp at h
    | ok sb =>
      obtain ⟨s, b⟩ := sb
      rw [show login tr mr st = handleLoginResponse st s b by
        unfold login; rw [hp]] at h
      unfold handleLoginResponse at h
      by_cases h200 : s = 200
      · rw [if_pos h200] at h
        cases hex : extractToken b with
        | none => rw [hex] at h; simp at h
        | some token =>
          rw [hex] at h
          by_cases ht : token = ""
          · simp [ht] at h
          · simp [ht] at h
            obtain ⟨htok, hst⟩ := h
            subst htok
            rw [← hst]
            simp [authHeaders, isAutenticado, ht]
      · rw [if_neg h200] at h
        split_ifs at h <;> simp_all
  · intro st h
    simp [authHeaders, isAutenticado, h]
  · intro tr mr st e st2 h
    have hst : st2 = st := by
      cases hp : loginPost tr mr with
      | error c =>
        rw [show login tr mr st = (.error (.apiUnavailable c), st) by
          unfold login; rw [hp]] at h
        simp at h
        exact h.2.symm
      | ok sb =>
        obtain ⟨s, b⟩ := sb
        rw [show login tr mr st = handleLoginResponse st s b by
          unfold login; rw [hp]] at h
        unfold handleLoginResponse at h
        by_cases h200 : s = 200
        · rw [if_pos h200] at h
          cases hex : extractToken b with
          | none => rw [hex] at h; simp at h; exact h.2.symm
          | some token =>
            rw [hex] at h
            by_cases ht : token = ""
            · simp [ht] at h
              exact h.2.symm
            · simp [ht] at h
        · rw [if_neg h200] at h
          split at h
          · simp at h; exact h.2.symm
          · split at h
            · simp at h; exact h.2.symm
            · split at h
              · simp at h; exact h.2.symm
              · split at h
                · simp at h; exact h.2.symm
                · simp at h; exact h.2.symm
    refine ⟨hst, fun hnone => ?_⟩
    rw [hst]
    simp [isAutenticado, hnone]

/-- Witness for `c5_token_state_invariants` at the concrete retry-scenario
transport (the login succeeds with token `"abc"`). -/
theorem c5_witness :
    (isAutenticado st0 = true ↔ st0.token ≠ none) ∧
    (authHeaders (login trRetryScenario 3 st0).2
        = .ok [("Authorization", "Bearer " ++ "abc")] ∧
      isAutenticado (login trRetryScenario 3 st0).2 = true) ∧
    (authHeaders st0 = .error .unauthorized ∧ isAutenticado st0 = false) ∧
    ((login (fun _ => .resp 401 .null) 3 st0).2 = st0 ∧
      (st0.token = none →
        isAutenticado (login (fun _ => .resp 401 .null) 3 st0).2 = false)) := by
  have hok : (login trRetryScenario 3 st0).1 = .ok "abc" := by
    have hstep : login trRetryScenario 3 st0
        = handleLoginResponse st0 200 (.obj [("token", .str "abc")]) := rfl
    rw [hstep]
    simp [handleLoginResponse, show extractToken (.obj [("token", .str "abc")])
      = some "abc" by simp [extractToken, jlookup],
      show ("abc" : String) ≠ "" by decide]
  have hfail : (login (fun _ => .resp 401 .null) 3 st0).1
      = .error .invalidCredentials := by
    have hstep : login (fun _ => .resp 401 .null) 3 st0
        = handleLoginResponse st0 401 .null := rfl
    rw [hstep]
    simp [handleLoginResponse]
  refine ⟨c5_token_state_invariants.1 st0, ?_, c5_token_state_invariants.2.2.1 st0 rfl, ?_⟩
  · exact c5_token_state_invariants.2.1 trRetryScenario 3 st0 "abc"
      (login trRetryScenario 3 st0).2 (by rw [Prod.ext_iff]; exact ⟨hok, rfl⟩)
  · exact c5_token_state_invariants.2.2.2 (fun _ => .resp 401 .null) 3 st0
      .invalidCredentials (login (fun _ => .resp 401 .null) 3 st0).2
      (by rw [Prod.ext_iff]; exact ⟨hfail, rfl⟩)

/-- An authenticated state used by the C6 witness. -/
def stAuth : AuthState :=
  ⟨some "abc", [("Accept", "application/json"), ("Authorization", "Bearer abc")]⟩

/-- C6: `logout` raises `Unauthorized` when the client is unauthenticated —
the guard `if not self._token` fires both for a missing and for an empty
stored token, before any request; for a stored non-empty token (the only
kind `login` can store, per the last conjunct): on 200 it clears the token,
pops the `Authorization` header and returns normally; on 401/403 it clears
both anyway and raises `TokenExpired`; on 429 it raises `RateLimitExceeded`
leaving the state untouched; on 5xx it raises `ApiUnavailable` leaving the
state untouched; any other status raises the unexpected-status error. -/
theorem c6_logout_cases :
    (∀ (st : AuthState) (r : AttemptResult), st.token = none →
      logout r st = (.error .unauthorized, st)) ∧
    (∀ (st : AuthState) (r : AttemptResult), st.token = some "" →
      logout r st = (.error .unauthorized, st)) ∧
    (∀ (st : AuthState) (t : String) (b : Json), st.token = some t → t ≠ "" →
      logout (.resp 200 b) st
        = (.ok (), ⟨none, headerPop st.headers "Authorization"⟩)) ∧
    (∀ (st : AuthState) (t : String) (s : Nat) (b : Json), st.token = some t →
      t ≠ "" → s = 401 ∨ s = 403 →
      logout (.resp s b) st
        = (.error .tokenExpired, ⟨none, headerPop st.headers "Authorization"⟩)) ∧
    (∀ (st : AuthState) (t : String) (b : Json), st.token = some t → t ≠ "" →
      logout (.resp 429 b) st = (.error .rateLimitExceeded, st)) ∧
    (∀ (st : AuthState) (t : String) (s : Nat) (b : Json), st.token = some t →
      t ≠ "" → 500 ≤ s →
      logout (.resp s b) st = (.error (.apiUnavailable none), st)) ∧
    (∀ (st : AuthState) (t : String) (s : Nat) (b : Json), st.token = some t →
      t ≠ "" → s ≠ 200 → s ≠ 401 → s ≠ 403 → s ≠ 429 → s < 500 →
      logout (.resp s b) st = (.error (.unexpectedAuthStatus s), st)) ∧
    (∀ (tr : Nat → AttemptResult) (mr : Nat) (st : AuthState) (tok : String)
      (st2 : AuthState), login tr mr st = (.ok tok, st2) →
      st2.token = some tok ∧ tok ≠ "") := by
  refine ⟨?_, ?_, ?_, ?_, ?_, ?_, ?_, ?_⟩
  · intro st r h
    unfold logout
    rw [h]
  · intro st r h
    unfold logout
    rw [h]
    simp
  · intro st t b h ht
    unfold logout
    rw [h]
    simp [ht]
  · intro st t s b h ht hs
    unfold logout
    rw [h]
    rcases hs with rfl | rfl <;> simp [ht]
  · intro st t b h ht
    unfold logout
    rw [h]
    simp [ht]
  · intro st t s b h ht hs
    unfold logout
    rw [h]
    have h1 : ¬ s = 200 := by omega
    have h2 : ¬ (s = 401 ∨ s = 403) := by omega
    have h3 : ¬ s = 429 := by omega
    simp [h1, h2, h3, hs, ht]
  · intro st t s b h ht h1 h2 h3 h4 h5
    unfold logout
    rw [h]
    have h6 : ¬ (s = 401 ∨ s = 403) := by tauto
    have h7 : ¬ 500 ≤ s := by omega
    simp [h1, h6, h4, h7, ht]
  · intro tr mr st tok st2 h
    cases hp : loginPost tr mr with
    | error c =>
      rw [show login tr mr st = (.error (.apiUnavailable c), st) by
        unfold login; rw [hp]] at h
      simp at h
    | ok sb =>
      obtain ⟨s, b⟩ := sb
      rw [show login tr mr st = handleLoginResponse st s b by
        unfold login; rw [hp]] at h
      unfold handleLoginResponse at h
      by_cases h200 : s = 200
      · rw [if_pos h200] at h
        cases hex : extractToken b with
        | none => rw [hex] at h; simp at h
        | some token =>
          rw [hex] at h
          by_cases ht : token = ""
          · simp [ht] at h
          · simp [ht] at h
            obtain ⟨htok, hst⟩ := h
            subst htok
            rw [← hst]
            exact ⟨rfl, ht⟩
      · rw [if_neg h200] at h
        split_ifs at h <;> simp_all

/-- A state holding an empty stored token, for the C6 witness. -/
def stEmptyTok : AuthState := ⟨some "", [("Accept", "application/json")]⟩

/-- Witness for `c6_logout_cases` at concrete states and statuses. -/
theorem c6_witness :
    logout (.resp 200 .null) st0 = (.error .unauthorized, st0) ∧
    logout (.resp 200 .null) stEmptyTok = (.error .unauthorized, stEmptyTok) ∧
    logout (.resp 200 .null) stAuth
      = (.ok (), ⟨none, headerPop stAuth.headers "Authorization"⟩) ∧
    logout (.resp 401 .null) stAuth
      = (.error .tokenExpired, ⟨none, headerPop stAuth.headers "Authorization"⟩) ∧
    logout (.resp 429 .null) stAuth = (.error .rateLimitExceeded, stAuth) ∧
    logout (.resp 503 .null) stAuth = (.error (.apiUnavailable none), stAuth) ∧
    logout (.resp 404 .null) stAuth = (.error (.unexpectedAuthStatus 404), stAuth) ∧
    ((login trRetryScenario 3 st0).2.token = some "abc" ∧ ("abc" : String) ≠ "") := by
  have hok : (login trRetryScenario 3 st0).1 = .ok "abc" := by
    have hstep : login trRetryScenario 3 st0
        = handleLoginResponse st0 200 (.obj [("token", .str "abc")]) := rfl
    rw [hstep]
    simp [handleLoginResponse, show extractToken (.obj [("token", .str "abc")])
      = some "abc" by simp [extractToken, jlookup],
      show ("abc" : String) ≠ "" by decide]
  refine ⟨?_, ?_, ?_, ?_, ?_, ?_, ?_, ?_⟩
  · exact c6_logout_cases.1 st0 (.resp 200 .null) rfl
  · exact c6_logout_cases.2.1 stEmptyTok (.resp 200 .null) rfl
  · exact c6_logout_cases.2.2.1 stAuth "abc" .null rfl (by decide)
  · exact c6_logout_cases.2.2.2.1 stAuth "abc" 401 .null rfl (by decide) (Or.inl rfl)
  · exact c6_logout_cases.2.2.2.2.1 stAuth "abc" .null rfl (by decide)
  · exact c6_logout_cases.2.2.2.2.2.1 stAuth "abc" 503 .null rfl (by decide) (by omega)
  · exact c6_logout_cases.2.2.2.2.2.2.1 stAuth "abc" 404 .null rfl (by decide)
      (by omega) (by omega) (by omega) (by omega) (by omega)
  · exact c6_logout_cases.2.2.2.2.2.2.2 trRetryScenario 3 st0 "abc"
      (login trRetryScenario 3 st0).2 (by rw [Prod.ext_iff]; exact ⟨hok, rfl⟩)

/-- One unrolling of the probe loop in `_extract_id`. -/
theorem extractId_cons (data : Json) (key : String) (rest : List String) :
    extractId data (key :: rest) =
      match dig data (pySplit key (Char.ofNat 46)) with
      | none => extractId data rest
      | some t =>
        match acceptId t with
        | some n => .ok n
        | none => extractId data rest := rfl

/-- C7: `_extract_id` returns the first probe path (in the fixed order
`data.mailing_id`, `data.id`, `mailing_id`, `id`) whose value is an integer
or a digit string (coerced), and `CreateMailingFailed` when none is; both
`{"data": {"id": 99}}` and `{"mailing_id": 77}` succeed through
`criar_mailing_container`, and a 409 from the transport surfaces as
`CreateMailingFailed`, not `UploadFailed`. -/
theorem c7_extract_id_probing :
    (∀ (data : Json) (keys : List String),
      extractId data keys =
        match keys.findSome? (fun k => (dig data (pySplit k (Char.ofNat 46))).bind acceptId) with
        | some n => .ok n
        | none => .error .createMailingFailed) ∧
    criarMailingContainerHttp
        (fun _ => .resp 201 (.obj [("data", .obj [("id", .int 99)])]))
        (fun n => toString n) ["create malling list", "create mailing list"] 3 7
      = .ok (99, 7) ∧
    criarMailingContainerHttp (fun _ => .resp 201 (.obj [("mailing_id", .int 77)]))
        (fun n => toString n) ["create malling list", "create mailing list"] 3 7
      = .ok (77, 7) ∧
    criarMailingContainerHttp (fun _ => .resp 409 .null)
        (fun n => toString n) ["create malling list", "create mailing list"] 3 7
      = .error .createMailingFailed ∧
    Err.createMailingFailed ≠ Err.uploadFailed ∧
    extractId (.obj [("data", .obj [("id", .str "0042")])]) extractIdKeys = .ok 42 ∧
    extractId (.obj [("id", .str "abc"), ("mailing_id", .arr [])]) extractIdKeys
      = .error .createMailingFailed := by
  refine ⟨?_, rfl, rfl, rfl, by decide, rfl, rfl⟩
  intro data keys
  induction keys with
  | nil => rfl
  | cons key rest ih =>
    rw [extractId_cons]
    cases hd : dig data (pySplit key (Char.ofNat 46)) with
    | none => simp [List.findSome?, hd, ih]
    | some t =>
      cases ha : acceptId t with
      | none => simp [List.findSome?, hd, ha, ih]
      | some n => simp [List.findSome?, hd, ha]

/-! ### C8 -/

/-- The campaign-keeping predicate of `listar_campanhas` (a campaign passes
both `continue` guards). -/
def keepCamp (filtro : Option String) (somenteAtivas : Bool) (camp : Json) : Bool :=
  passaFiltro filtro camp && passaAtiva somenteAtivas camp

/-- Modelled from the spec claim wording of C8 (refinement comparison only):
reads the campaign array from response field `data` or `campaigns`, first
PRESENT — the code instead takes the first truthy value.  Everything
downstream is as in the code. -/
def listarCampanhasFirstPresent (data : Json) (filtro : Option String)
    (somenteAtivas : Bool) : Except Err (List Json × List Int) :=
  match data with
  | .obj _ =>
    match (match data.get "data" with
           | some v => v
           | none =>
             match data.get "campaigns" with
             | some v => v
             | none => .arr []) with
    | .arr camps => listarLoop filtro somenteAtivas camps
    | _ => .error .pyRuntime
  | _ => .error .pyRuntime

/-- A response whose `data` field is present but empty while `campaigns`
holds one active campaign. -/
def respFallthrough : Json :=
  .obj [("data", .arr []),
        ("campaigns", .arr [.obj [("id", .int 5), ("name", .str "X"),
                                  ("active", .bool true)]])]

/-- C8 counterexample: with `data` present-but-empty, the code reads the
list from `campaigns` (first truthy), while the "first present" reading of the claim
reading would return no campaigns. -/
theorem c8_counterexample :
    listarCampanhas respFallthrough none true
      = .ok ([.obj [("id", .int 5), ("name", .str "X"), ("active", .bool true)]], [5]) ∧
    listarCampanhasFirstPresent respFallthrough none true = .ok ([], []) := by
  exact ⟨rfl, rfl⟩

/-- The filter loop keeps exactly the campaigns passing both guards,
preserving order, and records their integer ids in order. -/
theorem listarLoop_filter (filtro : Option String) (somenteAtivas : Bool) :
    ∀ camps : List Json, (∀ c ∈ camps, ∃ kvs, c = Json.obj kvs) →
      listarLoop filtro somenteAtivas camps
        = .ok (camps.filter (keepCamp filtro somenteAtivas),
               (camps.filter (keepCamp filtro somenteAtivas)).flatMap campIds) := by
  intro camps
  induction camps with
  | nil => intro _; rfl
  | cons c rest ih =>
    intro h
    obtain ⟨kvs, rfl⟩ := h c (List.mem_cons_self _ _)
    have hr := ih (fun x hx => h x (List.mem_cons_of_mem _ hx))
    by_cases h1 : passaFiltro filtro (Json.obj kvs) = true
    · by_cases h2 : passaAtiva somenteAtivas (Json.obj kvs) = true
      · simp [listarLoop, h1, h2, hr, keepCamp, List.filter_cons, List.flatMap_cons]
      · simp [listarLoop, h1, h2, hr, keepCamp, List.filter_cons]
    · simp [listarLoop, h1, hr, keepCamp, List.filter_cons]

/-- Transport for the C8 concrete scenario: first candidate 404s, second
returns the two campaigns. -/
def trScenario : Nat → AttemptResult := fun n =>
  match n with
  | 0 => .resp 404 .null
  | _ => .resp 200 (.obj [("data", .arr
      [.obj [("id", .int 1), ("name", .str "Camp1"), ("active", .bool true)],
       .obj [("id", .int 2), ("name", .str "Desativada"), ("active", .bool false)]])])

/-- C8 (amended): `listar_campanhas` reads the campaign array from `data` or
`campaigns`, first with a truthy value (a present-but-falsy field such as an
empty array falls through); it keeps a campaign exactly when the
case-insensitive substring filter on its name passes (if a non-empty filter
is given) and, when `somente_ativas`, its `active` value read with default
`True` is truthy; kept campaigns are returned in API order and their integer
ids recorded in order; in the concrete 404-fallback scenario with filter
`"Camp"`, exactly the one active campaign with id 1 is returned. -/
theorem c8_listar_campanhas_amended :
    (∀ (data : Json) (kvs : List (String × Json)) (filtro : Option String)
      (somenteAtivas : Bool) (camps : List Json),
      data = .obj kvs →
      pyOr ((data.get "data").getD .null)
        (pyOr ((data.get "campaigns").getD .null) (.arr [])) = .arr camps →
      (∀ c ∈ camps, ∃ ckvs, c = Json.obj ckvs) →
      listarCampanhas data filtro somenteAtivas
        = .ok (camps.filter (keepCamp filtro somenteAtivas),
               (camps.filter (keepCamp filtro somenteAtivas)).flatMap campIds)) ∧
    listarCampanhasHttp trScenario (fun n => toString n)
        ["campaign lists", "campaign/lists"] 3 (some "Camp") true
      = .ok ([.obj [("id", .int 1), ("name", .str "Camp1"), ("active", .bool true)]],
             [1]) := by
  constructor
  · intro data kvs filtro somenteAtivas camps hdata hsel hobjs
    subst hdata
    unfold listarCampanhas
    rw [hsel]
    exact listarLoop_filter filtro somenteAtivas camps hobjs
  · rfl

/-- Witness for `c8_listar_campanhas_amended` at a concrete response. -/
theorem c8_witness :
    listarCampanhas respFallthrough (some "X") true
      = .ok (([.obj [("id", .int 5), ("name", .str "X"), ("active", .bool true)]].filter
               (keepCamp (some "X") true)),
             ([.obj [("id", .int 5), ("name", .str "X"), ("active", .bool true)]].filter
               (keepCamp (some "X") true)).flatMap campIds) := by
  exact c8_listar_campanhas_amended.1 respFallthrough
    [("data", .arr []),
     ("campaigns", .arr [.obj [("id", .int 5), ("name", .str "X"),
                               ("active", .bool true)]])]
    (some "X") true
    [.obj [("id", .int 5), ("name", .str "X"), ("active", .bool true)]]
    rfl rfl (fun c hc => ⟨[("id", .int 5), ("name", .str "X"), ("active", .bool true)],
      by simpa using hc⟩)

/-! ### C9 -/

/-- The default-constructed contact (all dataclass defaults). -/
def contactEmpty : Contact := ⟨.null, .null, [], .null, .null, []⟩

/-- C9 counterexample: the empty contact serializes to `{"phones": []}` —
the `phones` field is empty (falsy) yet retained, so "empty/absent fields
omitted" fails; only `None`-valued fields are dropped. -/
theorem c9_counterexample :
    mkContact {} = .ok contactEmpty ∧
    Contact.toDict contactEmpty = [("phones", Json.arr [])] ∧
    pyTruthy (Json.arr []) = false := by
  exact ⟨rfl, rfl, rfl⟩

/-- A validation failure anywhere in the batch surfaces as the construction
`ValueError`. -/
theorem validateContacts_error :
    ∀ contatos : List ContactIn, (∃ c ∈ contatos, 20 < c.phones.length) →
      validateContacts contatos = .error .valueError := by
  intro contatos
  induction contatos with
  | nil => intro h; simp at h
  | cons c rest ih =>
    intro h
    by_cases hc : 20 < c.phones.length
    · have : mkContact c = .error .valueError := by
        unfold mkContact
        rw [if_pos hc]
      simp [validateContacts, this]
    · have hmk : mkContact c
          = .ok ⟨c.name, c.document, c.phones.map pyStr, c.email, c.external_id, c.extra⟩ := by
        unfold mkContact
        rw [if_neg hc]
      have hrest : ∃ x ∈ rest, 20 < x.phones.length := by
        rcases h with ⟨x, hx, hlen⟩
        rcases List.mem_cons.mp hx with rfl | hx2
        · exact absurd hlen hc
        · exact ⟨x, hx2, hlen⟩
      simp [validateContacts, hmk, ih hrest]

/-- C9 (amended): constructing a `Contact` fails with `ValueError` exactly
when more than 20 phones are given, and `enviar_mailing_json` then fails
before issuing any HTTP attempt (empty attempt trace); on success each phone
is coerced with `str(...)`; and `to_dict` keeps exactly the entries of the
updated field dictionary whose value is not `None` — `None`-valued (absent)
fields are omitted, while empty-but-non-`None` values (such as the empty
phones list) are retained. -/
theorem c9_contact_amended :
    (∀ c : ContactIn, mkContact c = .error .valueError ↔ 20 < c.phones.length) ∧
    (∀ (c : ContactIn) (ct : Contact), mkContact c = .ok ct →
      ct.phones = c.phones.map pyStr ∧ ct.name = c.name ∧ ct.document = c.document ∧
      ct.email = c.email ∧ ct.external_id = c.external_id ∧ ct.extra = c.extra) ∧
    (∀ (tr : Nat → AttemptResult) (keys : Nat → String) (paths : List String)
      (mr : Nat) (contatos : List ContactIn),
      (∃ c ∈ contatos, 20 < c.phones.length) →
      enviarMailingJsonHttp tr keys paths mr contatos = (.error .valueError, [])) ∧
    (∀ (ct : Contact) (kv : String × Json),
      kv ∈ ct.toDict ↔
        kv ∈ dictUpdate (declaredFields ct) ct.extra ∧ isNull kv.2 = false) := by
  refine ⟨?_, ?_, ?_, ?_⟩
  · intro c
    unfold mkContact
    by_cases hc : 20 < c.phones.length
    · simp [hc]
    · simp [hc]
  · intro c ct h
    unfold mkContact at h
    by_cases hc : 20 < c.phones.length
    · rw [if_pos hc] at h; simp at h
    · rw [if_neg hc] at h
      cases h
      exact ⟨rfl, rfl, rfl, rfl, rfl, rfl⟩
  · intro tr keys paths mr contatos h
    unfold enviarMailingJsonHttp
    rw [validateContacts_error contatos h]
  · intro ct kv
    unfold Contact.toDict
    rw [List.mem_filter]
    simp

/-- A 21-phone constructor input for the C9 witness. -/
def contact21 : ContactIn := { phones := List.replicate 21 (Json.str "1") }

/-- A small valid constructor input for the C9 witness. -/
def contactOkIn : ContactIn := { name := .str "A", phones := [Json.str "123"] }

/-- The contact `contactOkIn` constructs to. -/
def contactOk : Contact := ⟨.str "A", .null, ["123"], .null, .null, []⟩

/-- Witness for `c9_contact_amended` at concrete contacts. -/
theorem c9_witness :
    (mkContact contact21 = .error .valueError ↔ 20 < contact21.phones.length) ∧
    (contactOk.phones = contactOkIn.phones.map pyStr ∧
      contactOk.name = contactOkIn.name ∧ contactOk.document = contactOkIn.document ∧
      contactOk.email = contactOkIn.email ∧
      contactOk.external_id = contactOkIn.external_id ∧
      contactOk.extra = contactOkIn.extra) ∧
    enviarMailingJsonHttp (fun _ => .resp 200 .null) (fun n => toString n)
      ["create mailing json"] 3 [contact21] = (.error .valueError, []) ∧
    (("phones", Json.arr []) ∈ Contact.toDict contactEmpty ↔
      ("phones", Json.arr []) ∈ dictUpdate (declaredFields contactEmpty)
          contactEmpty.extra ∧ isNull (Json.arr []) = false) := by
  refine ⟨c9_contact_amended.1 contact21, ?_, ?_, ?_⟩
  · exact c9_contact_amended.2.1 contactOkIn contactOk rfl
  · exact c9_contact_amended.2.2.1 (fun _ => .resp 200 .null) (fun n => toString n)
      ["create mailing json"] 3 [contact21]
      ⟨contact21, List.mem_singleton.mpr rfl, by simp [contact21]⟩
  · exact c9_contact_amended.2.2.2 contactEmpty ("phones", Json.arr [])

/-! ### C10 -/

/-- Lookup misses a list none of whose keys is `k`. -/
theorem jlookup_eq_none (k : String) :
    ∀ l : List (String × Json), (∀ kv ∈ l, kv.1 ≠ k) → jlookup l k = none := by
  intro l
  induction l with
  | nil => intro _; rfl
  | cons kv rest ih =>
    intro h
    obtain ⟨k1, v1⟩ := kv
    have hne : k1 ≠ k := h (k1, v1) (List.mem_cons_self _ _)
    rw [jlookup, if_neg hne]
    exact ih (fun x hx => h x (List.mem_cons_of_mem _ hx))

/-- Looking `k` up after the `None`-filter of `to_dict`: when every `k`-entry
of the list holds the same value `v`, the filtered lookup yields `v` unless
`v` is `None`, in which case the key disappears. -/
theorem jlookup_filter_notNull (k : String) (v : Json) :
    ∀ l : List (String × Json), jlookup l k = some v →
      (∀ kv ∈ l, kv.1 = k → kv.2 = v) →
      jlookup (l.filter (fun kv => !isNull kv.2)) k
        = if isNull v then none else some v := by
  intro l
  induction l with
  | nil => intro h _; simp [jlookup] at h
  | cons kv rest ih =>
    intro hl huniq
    obtain ⟨k1, v1⟩ := kv
    rw [List.filter_cons]
    by_cases hk : k1 = k
    · rw [jlookup, if_pos hk] at hl
      have hv1 : v1 = v := Option.some.inj hl
      by_cases hn : isNull v = true
      · have hn1 : isNull v1 = true := by rw [hv1]; exact hn
        rw [if_neg (by simp [hn1]), if_pos hn]
        apply jlookup_eq_none
        intro kv2 hkv2 hkeq
        have hmem := (List.mem_filter.mp hkv2).1
        have hcond := (List.mem_filter.mp hkv2).2
        have h2 := huniq kv2 (List.mem_cons_of_mem _ hmem) hkeq
        rw [h2, hn] at hcond
        simp at hcond
      · have hn1 : (!isNull v1) = true := by
          rw [hv1]
          simpa using hn
        rw [if_pos hn1, jlookup, if_pos hk, hv1, if_neg hn]
    · rw [jlookup, if_neg hk] at hl
      have htail := ih hl (fun x hx => huniq x (List.mem_cons_of_mem _ hx))
      by_cases hn1 : (!isNull v1) = true
      · rw [if_pos hn1, jlookup, if_neg hk]
        exact htail
      · rw [if_neg hn1]
        exact htail

/-- Updating an entry never changes its key. -/
theorem updEntry_fst (extra : List (String × Json)) (kv : String × Json) :
    (updEntry extra kv).1 = kv.1 := by
  unfold updEntry
  split
  · rfl
  · rfl

/-- Updating an entry whose key `extra` binds yields `extra` value from extra. -/
theorem updEntry_of_lookup (extra : List (String × Json)) (kv : String × Json)
    (v : Json) (h : jlookup extra kv.1 = some v) :
    updEntry extra kv = (kv.1, v) := by
  unfold updEntry
  rw [h]

/-- A hit in the left part of an appended association list wins. -/
theorem jlookup_append_left (k : String) (v : Json) :
    ∀ l1 l2 : List (String × Json), jlookup l1 k = some v →
      jlookup (l1 ++ l2) k = some v := by
  intro l1
  induction l1 with
  | nil => intro l2 h; simp [jlookup] at h
  | cons kv rest ih =>
    intro l2 h
    obtain ⟨k1, v1⟩ := kv
    by_cases hk : k1 = k
    · rw [jlookup, if_pos hk] at h
      rw [List.cons_append, jlookup, if_pos hk]
      exact h
    · rw [jlookup, if_neg hk] at h
      rw [List.cons_append, jlookup, if_neg hk]
      exact ih l2 h

/-- Looking up a key `base` holds, after `dict.update`: the updated entry
carries `extra` value from extra. -/
theorem jlookup_map_updEntry (extra : List (String × Json)) (k : String) (v : Json)
    (hv : jlookup extra k = some v) :
    ∀ base : List (String × Json), (∃ w, jlookup base k = some w) →
      jlookup (base.map (updEntry extra)) k = some v := by
  intro base
  induction base with
  | nil => intro h; obtain ⟨w, hw⟩ := h; simp [jlookup] at hw
  | cons kv rest ih =>
    intro h
    obtain ⟨k1, v1⟩ := kv
    by_cases hk : k1 = k
    · rw [List.map_cons, jlookup,
        if_pos (by rw [updEntry_fst]; exact hk)]
      rw [show updEntry extra (k1, v1) = (k1, v) from
        updEntry_of_lookup extra (k1, v1) v (by rw [show (k1, v1).1 = k1 from rfl, hk]; exact hv)]
    · obtain ⟨w, hw⟩ := h
      rw [jlookup, if_neg hk] at hw
      rw [List.map_cons, jlookup,
        if_neg (by rw [updEntry_fst]; exact hk)]
      exact ih ⟨w, hw⟩

/-- Entries of the appended (`extra`-only) part of `dict.update` never carry
a key `base` already holds. -/
theorem filtered_extra_ne (base extra : List (String × Json)) (k : String)
    (hbase : ∃ b ∈ base, b.1 = k) :
    ∀ kv ∈ extra.filter (fun kv => !(base.any (fun b => b.1 == kv.1))),
      kv.1 ≠ k := by
  intro kv hkv hkeq
  have hcond := (List.mem_filter.mp hkv).2
  obtain ⟨b, hb, hbk⟩ := hbase
  simp at hcond
  exact hcond b.1 b.2 (by simpa using hb) (by rw [hbk, hkeq])

/-- The only binding of an updated declared key carries `extra` value from extra. -/
theorem mem_map_updEntry_val (extra : List (String × Json)) (k : String) (v : Json)
    (hv : jlookup extra k = some v) (base : List (String × Json))
    (kv : String × Json) (hm : kv ∈ base.map (updEntry extra)) (hkeq : kv.1 = k) :
    kv.2 = v := by
  obtain ⟨b, _, rfl⟩ := List.mem_map.mp hm
  have hbk : b.1 = k := by rw [← updEntry_fst extra b]; exact hkeq
  rw [updEntry_of_lookup extra b v (by rw [hbk]; exact hv)]

/-- Looking a declared field name up in the updated dictionary of `to_dict`
when `extra` binds it: the update puts the extra value at the declared
position and keeps it as the only binding of that key. -/
theorem jlookup_dictUpdate_declared (c : Contact) (k : String) (v : Json)
    (hk : k ∈ ["name", "document", "phones", "email", "external_id"])
    (hv : jlookup c.extra k = some v) :
    jlookup (dictUpdate (declaredFields c) c.extra) k = some v ∧
    ∀ kv ∈ dictUpdate (declaredFields c) c.extra, kv.1 = k → kv.2 = v := by
  have hbase : ∃ w, jlookup (declaredFields c) k = some w := by
    simp at hk
    rcases hk with rfl | rfl | rfl | rfl | rfl <;> exact ⟨_, rfl⟩
  have hbmem : ∃ b ∈ declaredFields c, b.1 = k := by
    simp at hk
    rcases hk with rfl | rfl | rfl | rfl | rfl <;> simp [declaredFields]
  constructor
  · unfold dictUpdate
    exact jlookup_append_left k v _ _ (jlookup_map_updEntry c.extra k v hv _ hbase)
  · intro kv hkv hkeq
    unfold dictUpdate at hkv
    rcases List.mem_append.mp hkv with hm | hm
    · exact mem_map_updEntry_val c.extra k v hv _ kv hm hkeq
    · exact absurd hkeq (filtered_extra_ne (declaredFields c) c.extra k hbmem kv hm)

/-- A contact whose `extra` rebinds the declared `name` field to `None`. -/
def contactExtraNone : Contact :=
  ⟨.str "x", .null, [], .null, .null, [("name", .null)]⟩

/-- C10 counterexample: `extra = {"name": None}` does not put `None` under
`name` in the serialized mapping — the key disappears entirely (the `None`
filter runs after the update), so the mapping does not contain the value
from `extra`. -/
theorem c10_counterexample :
    Contact.toDict contactExtraNone = [("phones", Json.arr [])] ∧
    jlookup (Contact.toDict contactExtraNone) "name" = none := by
  exact ⟨rfl, rfl⟩

/-- C10 (amended): when `extra` binds a declared field name, the serialized
mapping holds the value from `extra` under that key whenever that value is not
`None`; when the value in `extra` is `None` the key is omitted entirely — in
neither case does the own value of the declared field survive. -/
theorem c10_extra_overrides_amended :
    ∀ (c : Contact) (k : String) (v : Json),
      k ∈ ["name", "document", "phones", "email", "external_id"] →
      jlookup c.extra k = some v →
      jlookup (Contact.toDict c) k = if isNull v then none else some v := by
  intro c k v hk hv
  obtain ⟨h1, h2⟩ := jlookup_dictUpdate_declared c k v hk hv
  unfold Contact.toDict
  exact jlookup_filter_notNull k v _ h1 h2

/-- A contact whose `extra` rebinds `name` to a non-`None` value, for the
C10 witness. -/
def contactExtraY : Contact :=
  ⟨.str "x", .null, [], .null, .null, [("name", .str "y")]⟩

/-- Witness for `c10_extra_overrides_amended` at a concrete contact. -/
theorem c10_witness :
    jlookup (Contact.toDict contactExtraY) "name"
      = if isNull (.str "y") then none else some (.str "y") := by
  exact c10_extra_overrides_amended contactExtraY "name" (.str "y")
    (by simp) rfl

end MailingDiscador
